import Mathlib

/-!
# Verification of the clicker-engine economic core

Shallow embedding of the engine's tick / economy / bulk-purchase code
(`src/service/TickService` in `unnamed/part_015`, `src/service/EconomyService.ts`,
`src/service/InventoryService.ts`, the bulk math in `src/core/math/bulk`
(second half of `src/core/formatting/short.ts` in this source drop), and the
error taxonomy in `src/errors/EconomyError` (`unnamed/part_025`)).

Modelling conventions:
* JavaScript `number` values that the engine treats as continuous scalars
  (resource amounts, rates, costs, dt) are modelled as `ℚ` (exact arithmetic,
  the idealisation of the float math the spec reasons about).
* Item counts, generator `owned` counts, upgrade levels and purchase counts
  are modelled as `ℤ` (the data model documents them as integers; the code
  guards them with `<= 0` checks).
* `Math.log` is modelled with `Real.log` on the rational operands cast to `ℝ`
  (these definitions are the only noncomputable ones).
* `Map` accumulation keyed by id (the modifier aggregates and the per-resource
  rate array) is translated to per-key sums/products, which is exactly the
  value a JS `Map` holds at each key after the accumulation loop.
* The JS `Map` built by `new Map(state.resources.map((r, i) => [r.id, i]))`
  keeps, for each id, the **last** index (later insertions overwrite earlier
  ones); `resIndexFrom` below computes exactly that.
* Domain ids are `String`s, as in the source (the branded types erase to
  strings at runtime).
* The optional `custom` passthrough field and the constant `version : 1`
  field of `GameState` are omitted: every embedded operation copies them
  verbatim via object spread and no claim mentions them.
-/

/-- `ResourceState {id, amount, capacity?}` from `src/model/resource.ts`. -/
structure ResourceState where
  id : String
  amount : ℚ
  capacity : Option ℚ
deriving DecidableEq

instance : Inhabited ResourceState := ⟨⟨"", 0, none⟩⟩

/-- `GeneratorState {id, owned}` from `src/model/generator.ts`. -/
structure GeneratorState where
  id : String
  owned : ℤ
deriving DecidableEq

instance : Inhabited GeneratorState := ⟨⟨"", 0⟩⟩

/-- `InventoryEntry {id, count}` from `src/model/item.ts` (`unnamed/part_028`). -/
structure InventoryEntry where
  id : String
  count : ℤ
deriving DecidableEq

/-- `UpgradeState {id, level}` from `src/model/upgrade.ts`. -/
structure UpgradeState where
  id : String
  level : ℤ
deriving DecidableEq

instance : Inhabited UpgradeState := ⟨⟨"", 0⟩⟩

/-- `TaskInstance` (only its identity matters here: the tick and economy code
under verification never reads or writes task fields). -/
structure TaskInstance where
  id : String
  status : String
  repeatIndex : Option ℤ
  cooldownRemainingSeconds : Option ℚ
deriving DecidableEq

/-- `GameState` from `src/model/gameState.ts` (`unnamed/part_027`). -/
structure GameState where
  resources : List ResourceState
  generators : List GeneratorState
  inventory : List InventoryEntry
  upgrades : List UpgradeState
  tasks : Option (List TaskInstance)
deriving DecidableEq

/-- `GeneratorOutput` from `src/model/generator.ts`: a tagged union of
resource-rate and item-rate outputs. -/
inductive GeneratorOutput where
  | resource (resourceId : String) (rate : ℚ)
  | item (itemId : String) (rate : ℚ)
deriving DecidableEq

/-- `GeneratorPricing {costResourceId, baseCost, growth}`. -/
structure GeneratorPricing where
  costResourceId : String
  baseCost : ℚ
  growth : ℚ
deriving DecidableEq

/-- `GeneratorDefinition {id, produces, pricing?}`. -/
structure GeneratorDefinition where
  id : String
  produces : List GeneratorOutput
  pricing : Option GeneratorPricing
deriving DecidableEq

/-- `ModifierScope` from `src/model/upgrade.ts`: generator- or resource-scoped. -/
inductive ModifierScope where
  | generator (id : String)
  | resource (id : String)
deriving DecidableEq

/-- `Modifier` from `src/model/upgrade.ts`: additive or multiplicative. -/
inductive Modifier where
  | add (scope : ModifierScope) (value : ℚ)
  | mult (scope : ModifierScope) (value : ℚ)
deriving DecidableEq

/-- `UpgradeDefinition {id, modifiers}`. -/
structure UpgradeDefinition where
  id : String
  modifiers : List Modifier
deriving DecidableEq

/-- `ItemDefinition {id, kind, stackLimit?}` from `src/model/item.ts`.
`stackLimit = none` models both an absent field and
`Number.POSITIVE_INFINITY` (the code folds them together with
`def?.stackLimit ?? Number.POSITIVE_INFINITY`). -/
structure ItemDefinition where
  id : String
  kind : String
  stackLimit : Option ℤ
deriving DecidableEq

/-- `Registries` from `src/repo/registries.ts`, restricted to the lookups the
verified code consumes (`generators.get`, `items.get`, the optional
`upgrades.get`; the `resources`/`tasks` registries are never read by the
tick or economy code). -/
structure Registries where
  generators : String → Option GeneratorDefinition
  items : String → Option ItemDefinition
  upgrades : Option (String → Option UpgradeDefinition)

/-- `EngineEvent` union from `src/core/EventBus` (the variants produced by the
tick and economy code). -/
inductive EngineEvent where
  | tickStart (dtSeconds : ℚ)
  | tickEnd (dtSeconds : ℚ)
  | resourceDelta (resourceId : String) (delta : ℚ)
  | generatorPurchase (generatorId : String) (count : ℤ) (costResourceId : String) (cost : ℚ)
  | upgradeApplied (upgradeId : String) (newLevel : ℤ) (costResourceId : String) (cost : ℚ)
  | inventoryConsumed (itemId : String) (count : ℤ)
deriving DecidableEq

/-- The economy error taxonomy of `src/errors/EconomyError.ts`
(`unnamed/part_025`), with the payload fields each class stores. -/
inductive EconomyError where
  | insufficientResource (resourceId : String) (required : ℚ) (available : ℚ)
  | generatorNotFound (generatorId : String)
  | resourceNotFound (resourceId : String)
  | invalidQuantity (value : ℚ) (reason : String)
deriving DecidableEq

/-! ## Bulk purchase math (`src/core/math/bulk`) -/

/-- `totalCost({baseCost, growth, count})`: geometric series total.
`Math.pow(growth, count)` is only reached with `count > 0`, where it equals
`growth ^ count.toNat`. -/
def totalCost (baseCost growth : ℚ) (count : ℤ) : ℚ :=
  if count ≤ 0 then 0
  else if growth = 1 then baseCost * count
  else baseCost * ((growth ^ count.toNat - 1) / (growth - 1))

/-- `maxAffordable(currency, baseCost, growth)` from `src/core/math/bulk`.
The `else` branch computes `Math.max(0, Math.floor(Math.log(rhs) / Math.log(growth)))`. -/
noncomputable def maxAffordable (currency baseCost growth : ℚ) : ℤ :=
  if currency ≤ 0 then 0
  else if growth = 1 then ⌊currency / baseCost⌋
  else
    let rhs := currency * (growth - 1) / baseCost + 1
    if rhs ≤ 1 then 0
    else max 0 ⌊Real.log (rhs : ℝ) / Real.log (growth : ℝ)⌋

/-- `BulkMode = "1" | "10" | "100" | "max"`. -/
inductive BulkMode where
  | one
  | ten
  | hundred
  | max
deriving DecidableEq

/-- The fixed count requested by a non-`max` mode (the `count` variable of
`planPurchase` before the fallback test; `max` is resolved separately). -/
def fixedCountOf : BulkMode → ℤ
  | .one => 1
  | .ten => 10
  | .hundred => 100
  | .max => 0

/-- `planPurchase(mode, currency, baseCost, growth)` from `src/core/math/bulk`:
resolve the requested count, price it, and fall back to the max-affordable
count when a fixed request is unaffordable. -/
noncomputable def planPurchase (mode : BulkMode) (currency baseCost growth : ℚ) : ℤ × ℚ :=
  let count : ℤ :=
    match mode with
    | .one => 1
    | .ten => 10
    | .hundred => 100
    | .max => maxAffordable currency baseCost growth
  let cost := totalCost baseCost growth count
  if mode ≠ BulkMode.max ∧ currency < cost then
    let c := maxAffordable currency baseCost growth
    (c, totalCost baseCost growth c)
  else
    (count, cost)

/-- Modelled from the spec's formula for `maxAffordable` (§4.3 / claim C5):
`growth == 1 → floor(currency / baseCost)`; otherwise
`floor(log_growth((currency*(growth-1)/baseCost) + 1))`, clamped at 0 when the
quantity inside the logarithm is ≤ 1.  Used only to compare the source
definition against the spec's words. -/
noncomputable def maxAffordableSpec (currency baseCost growth : ℚ) : ℤ :=
  if growth = 1 then ⌊currency / baseCost⌋
  else if currency * (growth - 1) / baseCost + 1 ≤ 1 then 0
  else ⌊Real.log ((currency * (growth - 1) / baseCost + 1 : ℚ) : ℝ) / Real.log ((growth : ℚ) : ℝ)⌋

/-! ## Inventory (`src/service/InventoryService.ts`) -/

/-- `InventoryService.count`: total count of `id` across all stacks. -/
def invCount (inv : List InventoryEntry) (id : String) : ℤ :=
  (inv.map (fun e => if e.id = id then e.count else 0)).sum

/-- The "fill existing stacks first" loop of `InventoryService.add`: walk the
copied array, topping up stacks of `id` to the stack limit while `remaining > 0`.
Returns the updated list and the remaining amount. -/
def fillStacks (id : String) (limit : Option ℤ) : List InventoryEntry → ℤ → List InventoryEntry × ℤ
  | [], rem => ([], rem)
  | e :: es, rem =>
    if rem ≤ 0 then (e :: es, rem)
    else if e.id = id then
      let canAdd := max 0 (min rem (match limit with | none => rem | some l => l - e.count))
      let p := fillStacks id limit es (rem - canAdd)
      ({ e with count := e.count + canAdd } :: p.1, p.2)
    else
      let p := fillStacks id limit es rem
      (e :: p.1, p.2)

/-- The "create new stacks as needed" loop of `InventoryService.add`.  The
`fuel` argument only bounds the recursion: with `fuel = rem.toNat` it never
runs out when the stack limit is positive or absent; when the stack limit is
`≤ 0` the source loops forever, a configuration no claim exercises. -/
def newStacks (id : String) (limit : Option ℤ) : ℕ → ℤ → List InventoryEntry
  | 0, _ => []
  | fuel + 1, rem =>
    if rem ≤ 0 then []
    else
      match limit with
      | none => [⟨id, rem⟩]
      | some l => ⟨id, min rem l⟩ :: newStacks id limit fuel (rem - min rem l)

/-- `InventoryService.add(inventory, id, amount, itemRegistry)`:
fill existing stacks of `id` up to the item's stack limit, then append new
stacks.  A missing registry entry or missing `stackLimit` both yield an
unbounded limit (`?? Number.POSITIVE_INFINITY`), modelled as `none`. -/
def invAdd (inv : List InventoryEntry) (id : String) (amount : ℤ)
    (items : String → Option ItemDefinition) : List InventoryEntry :=
  if amount ≤ 0 then inv
  else
    let limit : Option ℤ := (items id).bind (fun d => d.stackLimit)
    let p := fillStacks id limit inv amount
    p.1 ++ newStacks id limit p.2.toNat p.2

/-- The consuming loop of `InventoryService.consume`: drain stacks of `id`
left to right while `remaining > 0`, dropping emptied stacks. -/
def consumeGo (id : String) : List InventoryEntry → ℤ → List InventoryEntry
  | [], _ => []
  | e :: es, remaining =>
    if e.id ≠ id then e :: consumeGo id es remaining
    else if remaining ≤ 0 then e :: consumeGo id es remaining
    else
      let take := min remaining e.count
      let left := e.count - take
      (if 0 < left then [⟨e.id, left⟩] else []) ++ consumeGo id es (remaining - take)

/-- `InventoryService.consume(inventory, id, amount)`. -/
def invConsume (inv : List InventoryEntry) (id : String) (amount : ℤ) : List InventoryEntry :=
  if amount ≤ 0 then inv else consumeGo id inv amount

/-! ## Modifier aggregation (`TickService`, lines 93-122 of `unnamed/part_015`)

The source accumulates four JS `Map`s (`genAdd`, `genMult`, `resAdd`,
`resMult`).  After the loop, the map value at a key (with the `?? 0` / `?? 1`
defaults read later) is the sum (resp. product) of every contribution whose
modifier scope is that key, so the aggregates are embedded as per-scope
sums/products.  The `state.upgrades.length > 0` short-circuit is the empty
sum/product. -/

/-- One modifier's contribution to the additive aggregate at scope `sc`
(an `add` modifier contributes `value * level`; `mult` contributes nothing). -/
def modAddContrib (sc : ModifierScope) (level : ℤ) : Modifier → ℚ
  | .add s v => if s = sc then v * (level : ℚ) else 0
  | .mult _ _ => 0

/-- One modifier's contribution to the multiplicative aggregate at scope `sc`
(a `mult` modifier contributes the factor `value ^ level`, the source's
`Math.pow(m.value, u.level)` with `level > 0`). -/
def modMultContrib (sc : ModifierScope) (level : ℤ) : Modifier → ℚ
  | .mult s v => if s = sc then v ^ level.toNat else 1
  | .add _ _ => 1

/-- One owned upgrade's additive contribution: skipped when `level <= 0` or the
registry has no definition. -/
def upgradeAddContrib (ureg : String → Option UpgradeDefinition) (sc : ModifierScope)
    (u : UpgradeState) : ℚ :=
  if u.level ≤ 0 then 0
  else
    match ureg u.id with
    | none => 0
    | some d => (d.modifiers.map (modAddContrib sc u.level)).sum

/-- One owned upgrade's multiplicative contribution. -/
def upgradeMultContrib (ureg : String → Option UpgradeDefinition) (sc : ModifierScope)
    (u : UpgradeState) : ℚ :=
  if u.level ≤ 0 then 1
  else
    match ureg u.id with
    | none => 1
    | some d => (d.modifiers.map (modMultContrib sc u.level)).prod

/-- The additive aggregate (`genAdd.get(id) ?? 0` / `resAdd.get(id) ?? 0`).
Without an upgrade registry the maps stay empty. -/
def aggAdd (reg : Registries) (ups : List UpgradeState) (sc : ModifierScope) : ℚ :=
  match reg.upgrades with
  | none => 0
  | some ureg => (ups.map (upgradeAddContrib ureg sc)).sum

/-- The multiplicative aggregate (`genMult.get(id) ?? 1` / `resMult.get(id) ?? 1`). -/
def aggMult (reg : Registries) (ups : List UpgradeState) (sc : ModifierScope) : ℚ :=
  match reg.upgrades with
  | none => 1
  | some ureg => (ups.map (upgradeMultContrib ureg sc)).prod

/-! ## The tick core (`TickService.tick`, lines 86-188 of `unnamed/part_015`) -/

/-- The resource-index map `new Map(state.resources.map((r, i) => [r.id, i]))`:
for each id the **last** index carrying it (later `Map` insertions overwrite
earlier ones).  `i` is the index of the head of the remaining list. -/
def resIndexFrom (rid : String) : ℕ → List ResourceState → Option ℕ
  | _, [] => none
  | i, r :: rs =>
    match resIndexFrom rid (i + 1) rs with
    | some j => some j
    | none => if r.id = rid then some i else none

/-- `resourceIndex.get(rid)`. -/
def resIndexOf (rs : List ResourceState) (rid : String) : Option ℕ :=
  resIndexFrom rid 0 rs

/-- An index-aware map, the embedding of `array.map((x, i) => ...)` starting at
index `i`. -/
def idxMap {α β : Type} (f : ℕ → α → β) : ℕ → List α → List β
  | _, [] => []
  | i, x :: xs => f i x :: idxMap f (i + 1) xs

/-- One generator's contribution to `rates[i]`: each resource output routed by
the index map to slot `i` contributes `((base + addG) * multG) * owned`.
Generators with `owned <= 0` or no registry entry are skipped. -/
def genRateTo (reg : Registries) (s : GameState) (i : ℕ) (g : GeneratorState) : ℚ :=
  if g.owned ≤ 0 then 0
  else
    match reg.generators g.id with
    | none => 0
    | some d =>
      let addG := aggAdd reg s.upgrades (ModifierScope.generator g.id)
      let multG := aggMult reg s.upgrades (ModifierScope.generator g.id)
      (d.produces.map (fun o =>
        match o with
        | .resource rid rate =>
          if resIndexOf s.resources rid = some i then ((rate + addG) * multG) * (g.owned : ℚ)
          else 0
        | .item _ _ => 0)).sum

/-- `rates[i]` after the generator loop. -/
def ratesAt (reg : Registries) (s : GameState) (i : ℕ) : ℚ :=
  (s.generators.map (genRateTo reg s i)).sum

/-- `finalRate` for the resource at slot `i`:
`((rates[i] ?? 0) + resAdd) * resMult`. -/
def finalRateAt (reg : Registries) (s : GameState) (i : ℕ) (r : ResourceState) : ℚ :=
  (ratesAt reg s i + aggAdd reg s.upgrades (ModifierScope.resource r.id)) *
    aggMult reg s.upgrades (ModifierScope.resource r.id)

/-- `amounts[i]` after the integration loop: unchanged when `finalRate = 0`,
otherwise integrated over `dt` and clamped into `[0, capacity]` when a
capacity is defined. -/
def tickAmount (reg : Registries) (s : GameState) (dt : ℚ) (i : ℕ) (r : ResourceState) : ℚ :=
  let fr := finalRateAt reg s i r
  if fr = 0 then r.amount
  else
    match r.capacity with
    | none => r.amount + fr * dt
    | some cap => max 0 (min (r.amount + fr * dt) cap)

/-- JS `Map.set` on an association list kept in insertion order: update the
existing entry in place, or append a new one. -/
def mapUpsert (l : List (String × ℤ)) (k : String) (v : ℤ) : List (String × ℤ) :=
  if l.any (fun p => p.1 == k) then
    l.map (fun p => if p.1 = k then (p.1, p.2 + v) else p)
  else l ++ [(k, v)]

/-- One generator's item outputs folded into the `itemsToAdd` map:
`addCount = Math.floor(totalRate * dt)`, recorded only when positive. -/
def genItemsFold (reg : Registries) (s : GameState) (dt : ℚ)
    (acc : List (String × ℤ)) (g : GeneratorState) : List (String × ℤ) :=
  if g.owned ≤ 0 then acc
  else
    match reg.generators g.id with
    | none => acc
    | some d =>
      let addG := aggAdd reg s.upgrades (ModifierScope.generator g.id)
      let multG := aggMult reg s.upgrades (ModifierScope.generator g.id)
      d.produces.foldl (fun acc2 o =>
        match o with
        | .item iid rate =>
          let addCount := ⌊(((rate + addG) * multG) * (g.owned : ℚ)) * dt⌋
          if 0 < addCount then mapUpsert acc2 iid addCount else acc2
        | .resource _ _ => acc2) acc

/-- The `itemsToAdd` map after the generator loop (insertion-ordered). -/
def itemsToAdd (reg : Registries) (s : GameState) (dt : ℚ) : List (String × ℤ) :=
  s.generators.foldl (genItemsFold reg s dt) []

/-- The `changed` flag as set by the resource-integration loop: true iff some
in-range resource has a nonzero final rate. -/
def resourcesChangedB (reg : Registries) (s : GameState) : Bool :=
  (List.range s.resources.length).any (fun i =>
    match s.resources.get? i with
    | some r => decide (finalRateAt reg s i r ≠ 0)
    | none => false)

/-- Whether `tick` builds a fresh snapshot: the source's `changed` flag, with
`false` covering both early returns (`dtSeconds === 0` and `!changed`, where
the identical input reference is returned). -/
def tickChanged (s : GameState) (dt : ℚ) (reg : Registries) : Bool :=
  if dt = 0 then false
  else resourcesChangedB reg s || !(itemsToAdd reg s dt).isEmpty

/-- `TickService.tick(state, dtSeconds, registries)`. -/
def tick (s : GameState) (dt : ℚ) (reg : Registries) : GameState :=
  if tickChanged s dt reg = false then s
  else
    { s with
      resources := idxMap (fun i r => { r with amount := tickAmount reg s dt i r }) 0 s.resources
      inventory :=
        (itemsToAdd reg s dt).foldl (fun inv p => invAdd inv p.1 p.2 reg.items) s.inventory }

/-- The `resourceDelta` events of `TickService.tickWithEvents`: for each index
of the post-tick resource array, the post-minus-pre amount when nonzero
(`before[i] ?? 0`; a missing post row yields delta 0 and no event). -/
def deltaEvents (before : List ℚ) (after : List ResourceState) : List EngineEvent :=
  (List.range after.length).filterMap (fun i =>
    match after.get? i with
    | some r =>
      let prev := before.getD i 0
      let delta := r.amount - prev
      if delta ≠ 0 then some (EngineEvent.resourceDelta r.id delta) else none
    | none => none)

/-- `TickService.tickWithEvents`: snapshot the pre-tick amounts, run `tick`,
and wrap the per-resource deltas in `tickStart` / `tickEnd`. -/
def tickWithEvents (s : GameState) (dt : ℚ) (reg : Registries) :
    GameState × List EngineEvent :=
  let before := s.resources.map (fun r => r.amount)
  let after := tick s dt reg
  (after,
    EngineEvent.tickStart dt :: (deltaEvents before after.resources ++ [EngineEvent.tickEnd dt]))

/-- The delta a single event contributes toward resource `rid`. -/
def deltaContrib (rid : String) : EngineEvent → ℚ
  | .resourceDelta r d => if r = rid then d else 0
  | _ => 0

/-- Sum of the deltas of the `resourceDelta` events carrying id `rid`. -/
def sumDeltas (rid : String) (events : List EngineEvent) : ℚ :=
  (events.map (deltaContrib rid)).sum

/-- The amount held by the (first) resource row with id `rid`, 0 when absent. -/
def amountOf (rs : List ResourceState) (rid : String) : ℚ :=
  match rs.find? (fun r => r.id == rid) with
  | some r => r.amount
  | none => 0

/-- One generator's production rate aimed at resource id `rid`, matched by id
rather than by index slot; used by the spec-side rate formula below. -/
def specGenRateTo (reg : Registries) (s : GameState) (rid : String) (g : GeneratorState) : ℚ :=
  if g.owned ≤ 0 then 0
  else
    match reg.generators g.id with
    | none => 0
    | some d =>
      let addG := aggAdd reg s.upgrades (ModifierScope.generator g.id)
      let multG := aggMult reg s.upgrades (ModifierScope.generator g.id)
      (d.produces.map (fun o =>
        match o with
        | .resource rid2 rate =>
          if rid2 = rid then ((rate + addG) * multG) * (g.owned : ℚ) else 0
        | .item _ _ => 0)).sum

/-- Modelled from the spec (§4.2, claim C2's composition contract): per-unit
rate `(base + generatorAdd) * generatorMult`, times `owned`, summed across the
generators feeding `rid`, and only then `(sum + resourceAdd) * resourceMult`
applied once to the aggregate. -/
def specNetRate (reg : Registries) (s : GameState) (rid : String) : ℚ :=
  ((s.generators.map (specGenRateTo reg s rid)).sum
      + aggAdd reg s.upgrades (ModifierScope.resource rid)) *
    aggMult reg s.upgrades (ModifierScope.resource rid)

/-! ## Economy operations (`src/service/EconomyService.ts`) -/

/-- `BuyGeneratorArgs`. -/
structure BuyGeneratorArgs where
  generatorId : String
  mode : BulkMode

/-- `ApplyUpgradeArgs`. -/
structure ApplyUpgradeArgs where
  upgradeId : String
  costResourceId : String
  cost : ℚ

/-- `SellResourceArgs` (`maxUnits?` optional). -/
structure SellResourceArgs where
  fromResourceId : String
  toResourceId : String
  unitPrice : ℚ
  maxUnits : Option ℚ

/-- `SellItemsArgs` (`maxCount?` optional). -/
structure SellItemsArgs where
  itemId : String
  toResourceId : String
  unitPrice : ℚ
  maxCount : Option ℤ

/-- `GrantResourceArgs`. -/
structure GrantResourceArgs where
  resourceId : String
  amount : ℚ

/-- `ConsumeResourceArgs`. -/
structure ConsumeResourceArgs where
  resourceId : String
  amount : ℚ

/-- `EconomyService.buyGenerators`: resolve pricing, locate the cost resource,
plan the purchase, and on a positive plan deduct the cost and increment (or
create) the generator's `owned` count. -/
noncomputable def buyGenerators (s : GameState) (a : BuyGeneratorArgs) (reg : Registries) :
    GameState × List EngineEvent :=
  match reg.generators a.generatorId with
  | none => (s, [])
  | some d =>
    match d.pricing with
    | none => (s, [])
    | some pr =>
      match s.resources.findIdx? (fun r => r.id == pr.costResourceId) with
      | none => (s, [])
      | some resIdx =>
        let currency := (s.resources.getD resIdx default).amount
        let plan := planPurchase a.mode currency pr.baseCost pr.growth
        if plan.1 ≤ 0 ∨ plan.2 ≤ 0 then (s, [])
        else
          let updatedResources := idxMap
            (fun i r => if i = resIdx then { r with amount := r.amount - plan.2 } else r)
            0 s.resources
          let updatedGenerators :=
            match s.generators.findIdx? (fun g => g.id == a.generatorId) with
            | some genIdx => idxMap
                (fun i g => if i = genIdx then { g with owned := g.owned + plan.1 } else g)
                0 s.generators
            | none => s.generators ++ [⟨a.generatorId, plan.1⟩]
          ({ s with resources := updatedResources, generators := updatedGenerators },
            [EngineEvent.generatorPurchase a.generatorId plan.1 pr.costResourceId plan.2,
             EngineEvent.resourceDelta pr.costResourceId (-plan.2)])

/-- `EconomyService.buyGeneratorsOrThrow`: same logic, raising the typed
errors instead of no-ops (`GeneratorNotFoundError`, `ResourceNotFoundError`,
`InsufficientResourceError(costResourceId, baseCost, currency)`). -/
noncomputable def buyGeneratorsOrThrow (s : GameState) (a : BuyGeneratorArgs) (reg : Registries) :
    Except EconomyError (GameState × List EngineEvent) :=
  match reg.generators a.generatorId with
  | none => .error (.generatorNotFound a.generatorId)
  | some d =>
    match d.pricing with
    | none => .error (.generatorNotFound a.generatorId)
    | some pr =>
      match s.resources.findIdx? (fun r => r.id == pr.costResourceId) with
      | none => .error (.resourceNotFound pr.costResourceId)
      | some resIdx =>
        let currency := (s.resources.getD resIdx default).amount
        let plan := planPurchase a.mode currency pr.baseCost pr.growth
        if plan.1 ≤ 0 ∨ plan.2 ≤ 0 then
          .error (.insufficientResource pr.costResourceId pr.baseCost currency)
        else
          let updatedResources := idxMap
            (fun i r => if i = resIdx then { r with amount := r.amount - plan.2 } else r)
            0 s.resources
          let updatedGenerators :=
            match s.generators.findIdx? (fun g => g.id == a.generatorId) with
            | some genIdx => idxMap
                (fun i g => if i = genIdx then { g with owned := g.owned + plan.1 } else g)
                0 s.generators
            | none => s.generators ++ [⟨a.generatorId, plan.1⟩]
          .ok ({ s with resources := updatedResources, generators := updatedGenerators },
            [EngineEvent.generatorPurchase a.generatorId plan.1 pr.costResourceId plan.2,
             EngineEvent.resourceDelta pr.costResourceId (-plan.2)])

/-- `EconomyService.applyUpgrade`: when affordable, deduct the explicit cost
and increment (or create at level 1) the upgrade. -/
def applyUpgrade (s : GameState) (a : ApplyUpgradeArgs) : GameState × List EngineEvent :=
  match s.resources.findIdx? (fun r => r.id == a.costResourceId) with
  | none => (s, [])
  | some resIdx =>
    let currency := (s.resources.getD resIdx default).amount
    if currency < a.cost then (s, [])
    else
      let updatedResources := idxMap
        (fun i r => if i = resIdx then { r with amount := currency - a.cost } else r)
        0 s.resources
      let upIdx? := s.upgrades.findIdx? (fun u => u.id == a.upgradeId)
      let updatedUpgrades :=
        match upIdx? with
        | some upIdx => idxMap
            (fun i u => if i = upIdx then { u with level := u.level + 1 } else u) 0 s.upgrades
        | none => s.upgrades ++ [⟨a.upgradeId, 1⟩]
      let newLevel :=
        match upIdx? with
        | some upIdx => (s.upgrades.getD upIdx default).level + 1
        | none => 1
      ({ s with resources := updatedResources, upgrades := updatedUpgrades },
        [EngineEvent.upgradeApplied a.upgradeId newLevel a.costResourceId a.cost,
         EngineEvent.resourceDelta a.costResourceId (-a.cost)])

/-- `EconomyService.applyUpgradeOrThrow`. -/
def applyUpgradeOrThrow (s : GameState) (a : ApplyUpgradeArgs) :
    Except EconomyError (GameState × List EngineEvent) :=
  match s.resources.findIdx? (fun r => r.id == a.costResourceId) with
  | none => .error (.resourceNotFound a.costResourceId)
  | some resIdx =>
    let currency := (s.resources.getD resIdx default).amount
    if currency < a.cost then .error (.insufficientResource a.costResourceId a.cost currency)
    else
      let updatedResources := idxMap
        (fun i r => if i = resIdx then { r with amount := currency - a.cost } else r)
        0 s.resources
      let upIdx? := s.upgrades.findIdx? (fun u => u.id == a.upgradeId)
      let updatedUpgrades :=
        match upIdx? with
        | some upIdx => idxMap
            (fun i u => if i = upIdx then { u with level := u.level + 1 } else u) 0 s.upgrades
        | none => s.upgrades ++ [⟨a.upgradeId, 1⟩]
      let newLevel :=
        match upIdx? with
        | some upIdx => (s.upgrades.getD upIdx default).level + 1
        | none => 1
      .ok ({ s with resources := updatedResources, upgrades := updatedUpgrades },
        [EngineEvent.upgradeApplied a.upgradeId newLevel a.costResourceId a.cost,
         EngineEvent.resourceDelta a.costResourceId (-a.cost)])

/-- `EconomyService.sellResource`: convert
`max(0, min(floor(available), maxUnits ?? available))` units of one resource
into another at `unitPrice`. -/
def sellResource (s : GameState) (a : SellResourceArgs) : GameState × List EngineEvent :=
  match s.resources.findIdx? (fun r => r.id == a.fromResourceId),
      s.resources.findIdx? (fun r => r.id == a.toResourceId) with
  | some fromIdx, some toIdx =>
    let available := (s.resources.getD fromIdx default).amount
    let units := max 0 (min ((⌊available⌋ : ℚ)) (a.maxUnits.getD available))
    if units ≤ 0 ∨ a.unitPrice ≤ 0 then (s, [])
    else
      let fromNext := available - units
      let toCurr := (s.resources.getD toIdx default).amount
      let toNext := toCurr + units * a.unitPrice
      let updatedResources := idxMap
        (fun i r =>
          if i = fromIdx then { r with amount := fromNext }
          else if i = toIdx then { r with amount := toNext } else r)
        0 s.resources
      ({ s with resources := updatedResources },
        [EngineEvent.resourceDelta (s.resources.getD fromIdx default).id (-units),
         EngineEvent.resourceDelta (s.resources.getD toIdx default).id (units * a.unitPrice)])
  | _, _ => (s, [])

/-- `EconomyService.sellItems`: consume inventory stacks left-to-right and
credit the target resource. -/
def sellItems (s : GameState) (a : SellItemsArgs) : GameState × List EngineEvent :=
  match s.resources.findIdx? (fun r => r.id == a.toResourceId) with
  | none => (s, [])
  | some toIdx =>
    let available := invCount s.inventory a.itemId
    let units := max 0 (min available (a.maxCount.getD available))
    if units ≤ 0 ∨ a.unitPrice ≤ 0 then (s, [])
    else
      let invNext := invConsume s.inventory a.itemId units
      let toCurr := (s.resources.getD toIdx default).amount
      let toNext := toCurr + (units : ℚ) * a.unitPrice
      let updatedResources := idxMap
        (fun i r => if i = toIdx then { r with amount := toNext } else r) 0 s.resources
      ({ s with inventory := invNext, resources := updatedResources },
        [EngineEvent.inventoryConsumed a.itemId units,
         EngineEvent.resourceDelta (s.resources.getD toIdx default).id ((units : ℚ) * a.unitPrice)])

/-- `EconomyService.grantResource`: direct positive adjustment. -/
def grantResource (s : GameState) (a : GrantResourceArgs) : GameState × List EngineEvent :=
  match s.resources.findIdx? (fun r => r.id == a.resourceId) with
  | none => (s, [])
  | some idx =>
    if a.amount ≤ 0 then (s, [])
    else
      let curr := (s.resources.getD idx default).amount
      let updatedResources := idxMap
        (fun i r => if i = idx then { r with amount := curr + a.amount } else r) 0 s.resources
      ({ s with resources := updatedResources },
        [EngineEvent.resourceDelta (s.resources.getD idx default).id a.amount])

/-- `EconomyService.consumeResource`: direct positive deduction, rejected when
the balance is insufficient. -/
def consumeResource (s : GameState) (a : ConsumeResourceArgs) : GameState × List EngineEvent :=
  match s.resources.findIdx? (fun r => r.id == a.resourceId) with
  | none => (s, [])
  | some idx =>
    if a.amount ≤ 0 then (s, [])
    else
      let curr := (s.resources.getD idx default).amount
      if curr < a.amount then (s, [])
      else
        let updatedResources := idxMap
          (fun i r => if i = idx then { r with amount := curr - a.amount } else r) 0 s.resources
        ({ s with resources := updatedResources },
          [EngineEvent.resourceDelta (s.resources.getD idx default).id (-a.amount)])

/-- `EconomyService.grantResourceOrThrow` (checks the quantity first, then the
resource lookup, mirroring the source order). -/
def grantResourceOrThrow (s : GameState) (a : GrantResourceArgs) :
    Except EconomyError (GameState × List EngineEvent) :=
  if a.amount ≤ 0 then .error (.invalidQuantity a.amount "Amount must be positive")
  else
    match s.resources.findIdx? (fun r => r.id == a.resourceId) with
    | none => .error (.resourceNotFound a.resourceId)
    | some idx =>
      let curr := (s.resources.getD idx default).amount
      let updatedResources := idxMap
        (fun i r => if i = idx then { r with amount := curr + a.amount } else r) 0 s.resources
      .ok ({ s with resources := updatedResources },
        [EngineEvent.resourceDelta (s.resources.getD idx default).id a.amount])

/-- `EconomyService.consumeResourceOrThrow`. -/
def consumeResourceOrThrow (s : GameState) (a : ConsumeResourceArgs) :
    Except EconomyError (GameState × List EngineEvent) :=
  if a.amount ≤ 0 then .error (.invalidQuantity a.amount "Amount must be positive")
  else
    match s.resources.findIdx? (fun r => r.id == a.resourceId) with
    | none => .error (.resourceNotFound a.resourceId)
    | some idx =>
      let curr := (s.resources.getD idx default).amount
      if curr < a.amount then .error (.insufficientResource a.resourceId a.amount curr)
      else
        let updatedResources := idxMap
          (fun i r => if i = idx then { r with amount := curr - a.amount } else r) 0 s.resources
        .ok ({ s with resources := updatedResources },
          [EngineEvent.resourceDelta (s.resources.getD idx default).id (-a.amount)])

/-! ## Helper lemmas about the list embedding -/

theorem idxMap_length {α β : Type} (f : ℕ → α → β) :
    ∀ (k : ℕ) (l : List α), (idxMap f k l).length = l.length := by
  intro k l
  induction l generalizing k with
  | nil => rfl
  | cons x xs ih => simpa [idxMap] using ih (k + 1)

theorem idxMap_get? {α β : Type} (f : ℕ → α → β) :
    ∀ (l : List α) (k j : ℕ), (idxMap f k l).get? j = (l.get? j).map (f (k + j)) := by
  intro l
  induction l with
  | nil => intro k j; rfl
  | cons x xs ih =>
    intro k j
    cases j with
    | zero => rfl
    | succ j => simpa [idxMap, Nat.add_assoc, Nat.add_comm 1 j] using ih (k + 1) j

theorem findIdxQ_some {α : Type} (p : α → Bool) :
    ∀ {l : List α} {i : ℕ}, l.findIdx? p = some i → ∃ x, l.get? i = some x ∧ p x = true := by
  intro l
  induction l with
  | nil => intro i h; simp [List.findIdx?] at h
  | cons x xs ih =>
    intro i h
    rw [List.findIdx?_cons] at h
    by_cases hp : p x
    · simp [hp] at h
      exact ⟨x, by simp [← h], hp⟩
    · simp [hp] at h
      obtain ⟨j, hj, hji⟩ := h
      obtain ⟨y, hy, hpy⟩ := ih hj
      exact ⟨y, by simpa [← hji] using hy, hpy⟩

theorem getD_of_get? {α : Type} [Inhabited α] {l : List α} {i : ℕ} {x : α}
    (h : l.get? i = some x) : l.getD i default = x := by
  rw [List.get?_eq_getElem?] at h
  simp [List.getD_eq_getElem?_getD, h]

theorem idxMap_map_eq {α β : Type} (f : ℕ → α → α) (g : α → β)
    (hf : ∀ i x, g (f i x) = g x) :
    ∀ (k : ℕ) (l : List α), (idxMap f k l).map g = l.map g := by
  intro k l
  induction l generalizing k with
  | nil => rfl
  | cons x xs ih => simp [idxMap, hf, ih (k + 1)]

theorem tick_cases (s : GameState) (dt : ℚ) (reg : Registries) :
    tick s dt reg = s ∨
      (tick s dt reg).resources =
        idxMap (fun i r => { r with amount := tickAmount reg s dt i r }) 0 s.resources := by
  by_cases h : tickChanged s dt reg = false
  · left; simp [tick, h]
  · right; simp [tick, h]

theorem tick_fields (s : GameState) (dt : ℚ) (reg : Registries) :
    (tick s dt reg).generators = s.generators ∧
      (tick s dt reg).upgrades = s.upgrades ∧ (tick s dt reg).tasks = s.tasks := by
  unfold tick
  split <;> simp

theorem resIndexFrom_shape (rid : String) :
    ∀ (rs : List ResourceState) (k j : ℕ), resIndexFrom rid k rs = some j →
      ∃ m x, j = k + m ∧ rs.get? m = some x ∧ x.id = rid := by
  intro rs
  induction rs with
  | nil => intro k j h; simp [resIndexFrom] at h
  | cons r rs ih =>
    intro k j h
    rw [resIndexFrom] at h
    cases hrec : resIndexFrom rid (k + 1) rs with
    | some j2 =>
      rw [hrec] at h
      obtain ⟨m, x, hm, hx, hid⟩ := ih (k + 1) j2 hrec
      have hj : j = j2 := by simpa using h.symm
      exact ⟨m + 1, x, by omega, by simpa using hx, hid⟩
    | none =>
      rw [hrec] at h
      by_cases hid : r.id = rid
      · rw [if_pos hid] at h
        have hj : j = k := by simpa using h.symm
        exact ⟨0, r, by omega, rfl, hid⟩
      · rw [if_neg hid] at h
        exact absurd h (by simp)

theorem get?_mem {α : Type} {l : List α} {i : ℕ} {x : α} (h : l.get? i = some x) : x ∈ l :=
  List.get?_mem h

theorem resIndexFrom_of_nodup :
    ∀ (rs : List ResourceState) (k i : ℕ) (r : ResourceState),
      (rs.map (fun x => x.id)).Nodup → rs.get? i = some r →
      resIndexFrom r.id k rs = some (k + i) := by
  intro rs
  induction rs with
  | nil => intro k i r _ h; simp at h
  | cons r0 rs ih =>
    intro k i r hnd hget
    have hnd' : (r0.id :: rs.map (fun x => x.id)).Nodup := by simpa using hnd
    have hnd0 : r0.id ∉ rs.map (fun x => x.id) := (List.nodup_cons.mp hnd').1
    have hndr : (rs.map (fun x => x.id)).Nodup := (List.nodup_cons.mp hnd').2
    cases i with
    | zero =>
      have hr : r0 = r := by simpa using hget
      subst hr
      have hnone : resIndexFrom r0.id (k + 1) rs = none := by
        cases hrec : resIndexFrom r0.id (k + 1) rs with
        | none => rfl
        | some j =>
          obtain ⟨m, x, _, hx, hid⟩ := resIndexFrom_shape r0.id rs (k + 1) j hrec
          exact absurd (List.mem_map.mpr ⟨x, get?_mem hx, hid⟩) hnd0
      rw [resIndexFrom, hnone]
      simp
    | succ m =>
      have hget2 : rs.get? m = some r := by simpa using hget
      have hrec := ih (k + 1) m r hndr hget2
      rw [resIndexFrom, hrec]
      simp [Nat.add_assoc, Nat.add_comm 1 m]

theorem resIndexFrom_of_not_mem (rid : String) :
    ∀ (rs : List ResourceState) (k : ℕ), rid ∉ rs.map (fun r => r.id) →
      resIndexFrom rid k rs = none := by
  intro rs
  induction rs with
  | nil => intro k _; rfl
  | cons r rs ih =>
    intro k h
    have h1 : r.id ≠ rid := fun he => h (by simp [he])
    have h2 : rid ∉ rs.map (fun r => r.id) := fun hm => h (by simp [hm])
    rw [resIndexFrom, ih (k + 1) h2, if_neg h1]

/-- C8: for every state and registries, `TickService.tick(state, 0, registries)`
returns the input snapshot unchanged (the source returns the identical input
reference; in this embedding, the function's result is the input itself). -/
theorem C8_tick_zero_identity : ∀ (s : GameState) (reg : Registries), tick s 0 reg = s := by
  intro s reg
  simp [tick, tickChanged]

/-- C10: `TickService.tick` never adds, removes or reorders resource rows
(ids and capacities are preserved positionally), leaves the `generators`,
`upgrades` and `tasks` fields unchanged, and generator output aimed at a
resource id absent from `state.resources` is routed nowhere by the resource
index map (so it is silently discarded rather than creating a row). -/
theorem C10_tick_frame : ∀ (s : GameState) (dt : ℚ) (reg : Registries),
    (tick s dt reg).resources.map (fun r => (r.id, r.capacity)) =
        s.resources.map (fun r => (r.id, r.capacity)) ∧
      (tick s dt reg).generators = s.generators ∧
      (tick s dt reg).upgrades = s.upgrades ∧
      (tick s dt reg).tasks = s.tasks ∧
      ∀ rid, rid ∉ s.resources.map (fun r => r.id) → resIndexOf s.resources rid = none := by
  intro s dt reg
  obtain ⟨hg, hu, ht⟩ := tick_fields s dt reg
  refine ⟨?_, hg, hu, ht, ?_⟩
  · rcases tick_cases s dt reg with h | h
    · rw [h]
    · rw [h, idxMap_map_eq]
      intro i x
      rfl
  · intro rid h
    exact resIndexFrom_of_not_mem rid s.resources 0 h

/-- Witness for C10 at a concrete state: output aimed at the absent id
`"iron"` is routed nowhere. -/
theorem C10_tick_frame_witness :
    resIndexOf (⟨[⟨"gold", 1, none⟩], [], [], [], none⟩ : GameState).resources "iron" = none :=
  (C10_tick_frame ⟨[⟨"gold", 1, none⟩], [], [], [], none⟩ 1
    ⟨fun _ => none, fun _ => none, none⟩).2.2.2.2 "iron" (by decide)

/-- A state holding one capacity-bounded resource whose amount already exceeds
its capacity, with no generators: the tick integration loop never touches it. -/
def c3State : GameState := ⟨[⟨"gold", 150, some 100⟩], [], [], [], none⟩

/-- Registries with no definitions at all. -/
def emptyReg : Registries := ⟨fun _ => none, fun _ => none, none⟩

theorem c3_tick_eq : tick c3State 1 emptyReg = c3State := by
  simp [tick, tickChanged, resourcesChangedB, itemsToAdd, finalRateAt, ratesAt,
    aggAdd, aggMult, c3State, emptyReg, List.range_succ]

/-- C3 counterexample: the claim "after `tick`, every resource that defines a
capacity has an amount in `[0, capacity]`" fails at a state whose input amount
already violates the bound: with amount 150, capacity 100 and no production,
`tick` leaves the row untouched (the clamp only runs when `finalRate ≠ 0`). -/
theorem C3_capacity_counterexample :
    ¬ (∀ (s : GameState) (dt : ℚ) (reg : Registries),
        ∀ r ∈ (tick s dt reg).resources, ∀ cap, r.capacity = some cap →
          0 ≤ r.amount ∧ r.amount ≤ cap) := by
  intro h
  have hm : (⟨"gold", 150, some 100⟩ : ResourceState) ∈ (tick c3State 1 emptyReg).resources := by
    rw [c3_tick_eq]
    simp [c3State]
  have := (h c3State 1 emptyReg _ hm 100 rfl).2
  norm_num at this

theorem mem_idxMap {α β : Type} (f : ℕ → α → β) :
    ∀ (k : ℕ) (l : List α) (y : β), y ∈ idxMap f k l → ∃ i x, x ∈ l ∧ y = f i x := by
  intro k l
  induction l generalizing k with
  | nil => intro y h; simp [idxMap] at h
  | cons x xs ih =>
    intro y h
    rw [idxMap] at h
    rcases List.mem_cons.mp h with h | h
    · exact ⟨k, x, List.mem_cons_self x xs, h⟩
    · obtain ⟨i, z, hz, hy⟩ := ih (k + 1) y h
      exact ⟨i, z, List.mem_cons_of_mem x hz, hy⟩

/-- C3 amended: after `tick`, every capacity-bounded resource whose **input**
amount already lay in `[0, capacity]` still lies in `[0, capacity]` (the code
clamps whenever it changes an amount and leaves it untouched otherwise). -/
theorem C3_capacity_amended : ∀ (s : GameState) (dt : ℚ) (reg : Registries),
    (∀ r ∈ s.resources, ∀ cap, r.capacity = some cap → 0 ≤ r.amount ∧ r.amount ≤ cap) →
    ∀ r ∈ (tick s dt reg).resources, ∀ cap, r.capacity = some cap →
      0 ≤ r.amount ∧ r.amount ≤ cap := by
  intro s dt reg hin r hr cap hcap
  rcases tick_cases s dt reg with h | h
  · exact hin r (by rwa [h] at hr) cap hcap
  · rw [h] at hr
    obtain ⟨i, x, hx, hy⟩ := mem_idxMap _ 0 s.resources r hr
    subst hy
    simp only at hcap
    have hbounds := hin x hx cap hcap
    have hcapnn : (0 : ℚ) ≤ cap := le_trans hbounds.1 hbounds.2
    refine ⟨?_, ?_⟩
    · simp only [tickAmount, hcap]
      split
      · exact hbounds.1
      · exact le_max_left 0 _
    · simp only [tickAmount, hcap]
      split
      · exact hbounds.2
      · exact max_le hcapnn (min_le_right _ cap)

theorem c3_witness_tick :
    tick ⟨[⟨"gold", 90, some 100⟩], [⟨"mine", 1⟩], [], [], none⟩ 1 emptyReg =
      ⟨[⟨"gold", 90, some 100⟩], [⟨"mine", 1⟩], [], [], none⟩ := by
  simp [tick, tickChanged, resourcesChangedB, itemsToAdd, genItemsFold, finalRateAt, ratesAt,
    genRateTo, aggAdd, aggMult, emptyReg, List.range_succ]

/-- Witness for the amended C3 at a concrete in-bounds state: amount 90,
capacity 100, and after the tick the amount stays within `[0, 100]`. -/
theorem C3_capacity_amended_witness :
    0 ≤ (⟨"gold", (90 : ℚ), some 100⟩ : ResourceState).amount ∧
      (⟨"gold", (90 : ℚ), some 100⟩ : ResourceState).amount ≤ 100 :=
  C3_capacity_amended ⟨[⟨"gold", 90, some 100⟩], [⟨"mine", 1⟩], [], [], none⟩ 1 emptyReg
    (by intro r hr cap hcap
        simp at hr
        subst hr
        simp at hcap
        subst hcap
        norm_num)
    ⟨"gold", 90, some 100⟩ (by rw [c3_witness_tick]; simp) 100 rfl

/-- A state whose only resource sits exactly at its capacity while a generator
keeps producing into it: the integrated amount is clamped back to the old
value, so nothing changes in value, yet `finalRate ≠ 0` marks it changed. -/
def c9State : GameState := ⟨[⟨"gold", 100, some 100⟩], [⟨"mine", 1⟩], [], [], none⟩

/-- Registries for `c9State`: the mine produces 1 gold per unit-second. -/
def c9Reg : Registries :=
  ⟨fun id => if id = "mine" then some ⟨"mine", [.resource "gold" 1], none⟩ else none,
   fun _ => none, none⟩

theorem c9_changed : tickChanged c9State 1 c9Reg = true := by
  simp [tickChanged, resourcesChangedB, c9State, c9Reg, List.range_succ, finalRateAt,
    ratesAt, genRateTo, aggAdd, aggMult, resIndexOf, resIndexFrom]

theorem c9_tick_eq : tick c9State 1 c9Reg = c9State := by
  rw [tick, if_neg (by rw [c9_changed]; simp)]
  simp [c9State, c9Reg, idxMap, tickAmount, finalRateAt, ratesAt, genRateTo,
    aggAdd, aggMult, resIndexOf, resIndexFrom, itemsToAdd, genItemsFold]

/-- C9 counterexample: `tick` rebuilds the resource array (the `changed` flag
is set) on a state where no amount and no inventory entry changes in value —
a resource pinned at its capacity with a nonzero production rate — and the
rebuilt state is value-equal to the input, refuting "new arrays are
constructed only when something actually changed in value". -/
theorem C9_fresh_counterexample :
    tickChanged c9State 1 c9Reg = true ∧ tick c9State 1 c9Reg = c9State :=
  ⟨c9_changed, c9_tick_eq⟩

/-- C9 amended: `tick` returns the original snapshot whenever its `changed`
flag stays clear, and it constructs a fresh snapshot only when `dt ≠ 0` and
some resource has a nonzero final rate or whole items were produced — a
condition that does not imply any amount actually changed in value (the
capacity clamp can cancel the integration). -/
theorem C9_fresh_amended : ∀ (s : GameState) (dt : ℚ) (reg : Registries),
    (tickChanged s dt reg = false → tick s dt reg = s) ∧
      (tickChanged s dt reg = true →
        dt ≠ 0 ∧ ((∃ i r, s.resources.get? i = some r ∧ finalRateAt reg s i r ≠ 0) ∨
          itemsToAdd reg s dt ≠ [])) := by
  intro s dt reg
  constructor
  · intro h
    simp [tick, h]
  · intro h
    rw [tickChanged] at h
    by_cases hdt : dt = 0
    · rw [if_pos hdt] at h
      exact absurd h (by simp)
    · rw [if_neg hdt] at h
      refine ⟨hdt, ?_⟩
      rcases Bool.or_eq_true_iff.mp h with h | h
      · left
        obtain ⟨i, hi, hcond⟩ := List.any_eq_true.mp h
        cases hget : s.resources.get? i with
        | none => rw [hget] at hcond; simp at hcond
        | some r =>
          rw [hget] at hcond
          exact ⟨i, r, hget, of_decide_eq_true hcond⟩
      · right
        simpa using h

/-- Witness for the amended C9: at the pinned-at-capacity state the fresh
snapshot is justified by a nonzero final rate. -/
theorem C9_fresh_amended_witness :
    (1 : ℚ) ≠ 0 ∧
      ((∃ i r, c9State.resources.get? i = some r ∧ finalRateAt c9Reg c9State i r ≠ 0) ∨
        itemsToAdd c9Reg c9State 1 ≠ []) :=
  (C9_fresh_amended c9State 1 c9Reg).2 c9_changed

theorem resIndexOf_eq_iff {s : List ResourceState} {i : ℕ} {r : ResourceState}
    (hnd : (s.map (fun x => x.id)).Nodup) (hget : s.get? i = some r) (rid : String) :
    resIndexOf s rid = some i ↔ rid = r.id := by
  constructor
  · intro h
    obtain ⟨m, x, hm, hx, hid⟩ := resIndexFrom_shape rid s 0 i h
    have hmi : m = i := by omega
    subst hmi
    rw [hget] at hx
    rw [← hid, Option.some.inj hx]
  · intro h
    subst h
    simpa [resIndexOf] using resIndexFrom_of_nodup s 0 i r hnd hget

theorem outputs_sum_congr {s : List ResourceState} {i : ℕ} {r : ResourceState}
    (hnd : (s.map (fun x => x.id)).Nodup) (hget : s.get? i = some r)
    (c : ℚ → ℚ) (l : List GeneratorOutput) :
    (l.map (fun o => match o with
      | GeneratorOutput.resource rid rate => if resIndexOf s rid = some i then c rate else 0
      | GeneratorOutput.item _ _ => 0)).sum =
    (l.map (fun o => match o with
      | GeneratorOutput.resource rid2 rate => if rid2 = r.id then c rate else 0
      | GeneratorOutput.item _ _ => 0)).sum := by
  congr 1
  apply List.map_congr_left
  intro o _
  cases o with
  | resource rid2 rate =>
    show (if resIndexOf s rid2 = some i then c rate else 0) =
      (if rid2 = r.id then c rate else 0)
    by_cases hrid : rid2 = r.id
    · rw [if_pos ((resIndexOf_eq_iff hnd hget rid2).mpr hrid), if_pos hrid]
    · rw [if_neg (fun hc => hrid ((resIndexOf_eq_iff hnd hget rid2).mp hc)), if_neg hrid]
  | item _ _ => rfl

theorem finalRate_eq_spec {s : GameState} {i : ℕ} {r : ResourceState}
    (hnd : (s.resources.map (fun x => x.id)).Nodup) (hget : s.resources.get? i = some r)
    (reg : Registries) : finalRateAt reg s i r = specNetRate reg s r.id := by
  rw [finalRateAt, specNetRate, ratesAt]
  congr 3
  apply List.map_congr_left
  intro g _
  rw [genRateTo, specGenRateTo]
  by_cases how : g.owned ≤ 0
  · simp [how]
  · rw [if_neg how, if_neg how]
    cases hdef : reg.generators g.id with
    | none => rfl
    | some d =>
      exact outputs_sum_congr hnd hget
        (fun rate => (rate + aggAdd reg s.upgrades (ModifierScope.generator g.id)) *
          aggMult reg s.upgrades (ModifierScope.generator g.id) * (g.owned : ℚ)) d.produces

theorem resourcesChangedB_false_rate {reg : Registries} {s : GameState} {i : ℕ}
    {r : ResourceState} (h : resourcesChangedB reg s = false)
    (hget : s.resources.get? i = some r) : finalRateAt reg s i r = 0 := by
  have hi : i < s.resources.length := by
    rw [List.get?_eq_getElem?] at hget
    exact (List.getElem?_eq_some_iff.mp hget).1
  have := List.any_eq_false.mp h i (List.mem_range.mpr hi)
  rw [hget] at this
  simpa using this

/-- C2: in every tick of a state with well-formed (duplicate-free) resource
ids, a capacity-free resource integrates exactly
`((sum over generators of (base + generatorAdd) * generatorMult * owned)
 + resourceAdd) * resourceMult * dt`:
generator-level modifiers compose per unit, are scaled by `owned` and summed
across generators feeding the resource, and the resource-level add/mult pair
is applied once to the aggregate before integrating over `dtSeconds`. -/
theorem C2_composition : ∀ (s : GameState) (dt : ℚ) (reg : Registries) (i : ℕ)
    (r : ResourceState),
    (s.resources.map (fun x => x.id)).Nodup → s.resources.get? i = some r →
    r.capacity = none →
    (tick s dt reg).resources.get? i =
      some { r with amount := r.amount + specNetRate reg s r.id * dt } := by
  intro s dt reg i r hnd hget hcap
  by_cases hch : tickChanged s dt reg = false
  · have htick : tick s dt reg = s := by simp [tick, hch]
    rw [htick, hget]
    have hzero : specNetRate reg s r.id * dt = 0 := by
      rw [tickChanged] at hch
      by_cases hdt : dt = 0
      · rw [hdt, mul_zero]
      · rw [if_neg hdt] at hch
        have hrb : resourcesChangedB reg s = false := by
          rcases Bool.or_eq_false_iff.mp hch with ⟨h1, _⟩
          exact h1
        rw [← finalRate_eq_spec hnd hget reg, resourcesChangedB_false_rate hrb hget, zero_mul]
    rw [hzero]
    obtain ⟨rid0, ramt, rcap⟩ := r
    simp
  · have h : (tick s dt reg).resources =
        idxMap (fun i r => { r with amount := tickAmount reg s dt i r }) 0 s.resources := by
      rw [tick, if_neg hch]
    rw [h, idxMap_get? _ s.resources 0 i, hget]
    simp only [Option.map_some', Nat.zero_add]
    congr 1
    rw [tickAmount]
    simp only [hcap]
    rw [finalRate_eq_spec hnd hget reg]
    by_cases hfr : specNetRate reg s r.id = 0
    · rw [if_pos hfr, hfr, zero_mul, add_zero]
    · rw [if_neg hfr]

/-- The spec's modifier-composition scenario: one resource, one generator with
base rate 2 and `owned = 2`, and one level-1 upgrade carrying all four
modifiers (+1 and ×2 on the generator, +3 and ×3 on the resource). -/
def c2State : GameState := ⟨[⟨"energy", 0, none⟩], [⟨"gen", 2⟩], [], [⟨"boost", 1⟩], none⟩

/-- Registries for `c2State`. -/
def c2Reg : Registries :=
  ⟨fun id => if id = "gen" then some ⟨"gen", [.resource "energy" 2], none⟩ else none,
   fun _ => none,
   some (fun id =>
     if id = "boost" then
       some ⟨"boost",
         [.add (.generator "gen") 1, .mult (.generator "gen") 2,
          .add (.resource "energy") 3, .mult (.resource "energy") 3]⟩
     else none)⟩

theorem c2_spec_rate : specNetRate c2Reg c2State "energy" = 45 := by
  simp [specNetRate, specGenRateTo, aggAdd, aggMult, upgradeAddContrib, upgradeMultContrib,
    modAddContrib, modMultContrib, c2State, c2Reg]
  norm_num

/-- Witness for C2: at the spec's scenario the aggregate rate is 45/sec and a
tick with `dt = 2` raises the resource by exactly 90. -/
theorem C2_composition_witness :
    (tick c2State 2 c2Reg).resources.get? 0 = some ⟨"energy", 90, none⟩ := by
  have h := C2_composition c2State 2 c2Reg 0 ⟨"energy", 0, none⟩
    (by simp [c2State]) rfl rfl
  rw [h]
  have : specNetRate c2Reg c2State "energy" = 45 := c2_spec_rate
  simp only [c2State] at this ⊢
  rw [this]
  norm_num

/-- Recursive twin of `deltaEvents` used for reasoning: peel one resource and
one pre-tick amount at a time. -/
def deltaZip : List ℚ → List ResourceState → List EngineEvent
  | _, [] => []
  | b, r :: rs =>
    (if r.amount - b.getD 0 0 ≠ 0 then
        [EngineEvent.resourceDelta r.id (r.amount - b.getD 0 0)]
      else []) ++ deltaZip b.tail rs

theorem deltaEvents_eq_zip : ∀ (rs : List ResourceState) (b : List ℚ),
    deltaEvents b rs = deltaZip b rs := by
  intro rs
  induction rs with
  | nil => intro b; rfl
  | cons r rs ih =>
    intro b
    rw [deltaZip, ← ih b.tail, deltaEvents, deltaEvents]
    simp only [List.length_cons]
    rw [List.range_succ_eq_map, List.filterMap_cons, List.filterMap_map]
    have htail : ∀ i ∈ List.range rs.length,
        ((fun i => match (r :: rs).get? i with
          | some x =>
            if x.amount - b.getD i 0 ≠ 0 then
              some (EngineEvent.resourceDelta x.id (x.amount - b.getD i 0))
            else none
          | none => none) ∘ Nat.succ) i =
        (fun i => match rs.get? i with
          | some x =>
            if x.amount - b.tail.getD i 0 ≠ 0 then
              some (EngineEvent.resourceDelta x.id (x.amount - b.tail.getD i 0))
            else none
          | none => none) i := by
      intro i _
      have hb : b.getD (i + 1) 0 = b.tail.getD i 0 := by
        cases b with
        | nil => simp
        | cons x xs => simp
      simp only [Function.comp]
      rw [show Nat.succ i = i + 1 from rfl, show (r :: rs).get? (i + 1) = rs.get? i from rfl, hb]
    rw [List.filterMap_congr htail]
    by_cases hd : r.amount - b.getD 0 0 ≠ 0
    · simp only [show (r :: rs).get? 0 = some r from rfl, if_pos hd]
      rfl
    · simp only [show (r :: rs).get? 0 = some r from rfl, if_neg hd]
      rfl

theorem deltaZip_self : ∀ rs : List ResourceState,
    deltaZip (rs.map (fun r => r.amount)) rs = [] := by
  intro rs
  induction rs with
  | nil => rfl
  | cons r rs ih => simp [deltaZip, ih]

theorem sumDeltas_append (rid : String) (l1 l2 : List EngineEvent) :
    sumDeltas rid (l1 ++ l2) = sumDeltas rid l1 + sumDeltas rid l2 := by
  simp [sumDeltas]

theorem sumDeltas_wrap (rid : String) (dt : ℚ) (de : List EngineEvent) :
    sumDeltas rid (EngineEvent.tickStart dt :: (de ++ [EngineEvent.tickEnd dt])) =
      sumDeltas rid de := by
  simp [sumDeltas, deltaContrib]

theorem sumDeltas_zip (rid : String) :
    ∀ (rs : List ResourceState) (F : ℕ → ResourceState → ResourceState) (k : ℕ),
      (∀ i x, (F i x).id = x.id) →
      sumDeltas rid (deltaZip (rs.map (fun r => r.amount)) (idxMap F k rs)) =
        (idxMap (fun i x => if x.id = rid then (F i x).amount - x.amount else 0) k rs).sum := by
  intro rs
  induction rs with
  | nil => intro F k _; rfl
  | cons r rs ih =>
    intro F k hid
    rw [idxMap, idxMap]
    have hzip : deltaZip ((r :: rs).map (fun r => r.amount)) (F k r :: idxMap F (k + 1) rs) =
        (if (F k r).amount - r.amount ≠ 0 then
            [EngineEvent.resourceDelta (F k r).id ((F k r).amount - r.amount)]
          else []) ++ deltaZip (rs.map (fun r => r.amount)) (idxMap F (k + 1) rs) := by
      rw [List.map_cons, deltaZip]
      simp
    rw [hzip, sumDeltas_append, ih F (k + 1) hid, List.sum_cons]
    congr 1
    by_cases hd : (F k r).amount - r.amount ≠ 0
    · rw [if_pos hd]
      simp [sumDeltas, deltaContrib, hid k r]
    · rw [if_neg hd]
      push_neg at hd
      simp [sumDeltas, hd]

theorem idxMap_sum_zero (rid : String) (g : ℕ → ResourceState → ℚ) :
    ∀ (rs : List ResourceState) (k : ℕ), rid ∉ rs.map (fun x => x.id) →
      (idxMap (fun i x => if x.id = rid then g i x else 0) k rs).sum = 0 := by
  intro rs
  induction rs with
  | nil => intro k _; rfl
  | cons r rs ih =>
    intro k h
    have h1 : r.id ≠ rid := fun he => h (by simp [he])
    have h2 : rid ∉ rs.map (fun x => x.id) := fun hm => h (by simp [hm])
    rw [idxMap, List.sum_cons, if_neg h1, ih (k + 1) h2, add_zero]

theorem idxMap_sum_amountOf (rid : String) :
    ∀ (rs : List ResourceState) (F : ℕ → ResourceState → ResourceState) (k : ℕ),
      (∀ i x, (F i x).id = x.id) → (rs.map (fun x => x.id)).Nodup →
      (idxMap (fun i x => if x.id = rid then (F i x).amount - x.amount else 0) k rs).sum =
        amountOf (idxMap F k rs) rid - amountOf rs rid := by
  intro rs
  induction rs with
  | nil => intro F k _ _; simp [idxMap, amountOf]
  | cons r rs ih =>
    intro F k hid hnd
    have hnd' : (r.id :: rs.map (fun x => x.id)).Nodup := by simpa using hnd
    have hnd0 : r.id ∉ rs.map (fun x => x.id) := (List.nodup_cons.mp hnd').1
    have hndr : (rs.map (fun x => x.id)).Nodup := (List.nodup_cons.mp hnd').2
    rw [idxMap, idxMap, List.sum_cons]
    by_cases h : r.id = rid
    · have hsum0 : (idxMap (fun i x =>
          if x.id = rid then (F i x).amount - x.amount else 0) (k + 1) rs).sum = 0 :=
        idxMap_sum_zero rid (fun i x => (F i x).amount - x.amount) rs (k + 1) (h ▸ hnd0)
      have hb : ((F k r).id == rid) = true := by
        rw [hid k r]
        exact beq_iff_eq.mpr h
      have hb2 : (r.id == rid) = true := beq_iff_eq.mpr h
      rw [if_pos h, hsum0, add_zero]
      simp only [amountOf, List.find?_cons, hb, hb2]
    · have hb : ((F k r).id == rid) = false := by
        rw [hid k r]
        exact beq_eq_false_iff_ne.mpr h
      have hb2 : (r.id == rid) = false := beq_eq_false_iff_ne.mpr h
      have hih := ih F (k + 1) hid hndr
      simp only [amountOf] at hih
      rw [if_neg h, zero_add]
      simp only [amountOf, List.find?_cons, hb, hb2]
      exact hih

/-- C1: for every state with well-formed (duplicate-free) resource ids, every
`dtSeconds` and registries, the sum of the deltas of the `resourceDelta`
events emitted by `TickService.tickWithEvents` for a resource id equals that
resource's amount in the returned state minus its amount in the input state,
exactly. -/
theorem C1_conservation : ∀ (s : GameState) (dt : ℚ) (reg : Registries) (rid : String),
    (s.resources.map (fun x => x.id)).Nodup →
    sumDeltas rid (tickWithEvents s dt reg).2 =
      amountOf (tickWithEvents s dt reg).1.resources rid - amountOf s.resources rid := by
  intro s dt reg rid hnd
  rw [tickWithEvents]
  simp only
  rw [sumDeltas_wrap, deltaEvents_eq_zip]
  by_cases hch : tickChanged s dt reg = false
  · have htick : tick s dt reg = s := by simp [tick, hch]
    rw [htick, deltaZip_self]
    simp [sumDeltas]
  · have h : (tick s dt reg).resources =
        idxMap (fun i r => { r with amount := tickAmount reg s dt i r }) 0 s.resources := by
      rw [tick, if_neg hch]
    rw [h,
      sumDeltas_zip rid s.resources
        (fun i r => { r with amount := tickAmount reg s dt i r }) 0 (fun _ _ => rfl),
      idxMap_sum_amountOf rid s.resources
        (fun i r => { r with amount := tickAmount reg s dt i r }) 0 (fun _ _ => rfl) hnd]

/-- Witness for C1 at a concrete one-resource state. -/
theorem C1_conservation_witness :
    sumDeltas "gold" (tickWithEvents ⟨[⟨"gold", 5, none⟩], [], [], [], none⟩ 1 emptyReg).2 =
      amountOf (tickWithEvents ⟨[⟨"gold", 5, none⟩], [], [], [], none⟩ 1 emptyReg).1.resources
          "gold" -
        amountOf (⟨[⟨"gold", 5, none⟩], [], [], [], none⟩ : GameState).resources "gold" :=
  C1_conservation ⟨[⟨"gold", 5, none⟩], [], [], [], none⟩ 1 emptyReg "gold" (by simp)

theorem floor_log_ratio (x g : ℝ) (hg : 1 < g) (n : ℕ) (h1 : g ^ n ≤ x)
    (h2 : x < g ^ (n + 1)) : ⌊Real.log x / Real.log g⌋ = n := by
  have hg0 : (0 : ℝ) < g := lt_trans one_pos hg
  have hx0 : (0 : ℝ) < x := lt_of_lt_of_le (pow_pos hg0 n) h1
  have hlg : 0 < Real.log g := Real.log_pos hg
  have hlo : (n : ℝ) * Real.log g ≤ Real.log x := by
    calc (n : ℝ) * Real.log g = Real.log (g ^ n) := by rw [Real.log_pow]
    _ ≤ Real.log x := Real.log_le_log (pow_pos hg0 n) h1
  have hhi : Real.log x < ((n : ℝ) + 1) * Real.log g := by
    calc Real.log x < Real.log (g ^ (n + 1)) := Real.log_lt_log hx0 h2
    _ = ((n : ℝ) + 1) * Real.log g := by rw [Real.log_pow]; push_cast; ring
  rw [Int.floor_eq_iff]
  constructor
  · rw [le_div_iff hlg]
    exact_mod_cast hlo
  · rw [div_lt_iff hlg]
    push_cast
    exact_mod_cast hhi

theorem maxAffordable_eval (currency baseCost growth : ℚ) (n : ℕ)
    (hc : 0 < currency) (hg1 : 1 < growth)
    (hlo : ((growth : ℚ) : ℝ) ^ n ≤ ((currency * (growth - 1) / baseCost + 1 : ℚ) : ℝ))
    (hhi : ((currency * (growth - 1) / baseCost + 1 : ℚ) : ℝ) < ((growth : ℚ) : ℝ) ^ (n + 1))
    (hr : ¬(currency * (growth - 1) / baseCost + 1 ≤ 1)) :
    maxAffordable currency baseCost growth = n := by
  have hne : growth ≠ 1 := by
    intro h
    rw [h] at hg1
    exact lt_irrefl 1 hg1
  simp only [maxAffordable]
  rw [if_neg (not_le.mpr hc), if_neg hne, if_neg hr,
    floor_log_ratio _ _ (by exact_mod_cast hg1) n hlo hhi]
  exact max_eq_right (Int.natCast_nonneg n)

/-- C5: `maxAffordable` follows the spec's closed form for positive `currency`
and `baseCost` — `floor(currency / baseCost)` when `growth = 1`, otherwise
`floor(log_growth(currency*(growth-1)/baseCost + 1))` clamped to 0 when the
quantity inside the logarithm is ≤ 1 — and on the spec's concrete instance
`totalCost(10, 1.1, 3)` is within `1e-9` of `33.1` (it is exact in this
arithmetic) and `maxAffordable(33.1, 10, 1.1) = 3`. -/
theorem C5_maxAffordable :
    (∀ (currency baseCost growth : ℚ), 0 < currency → 0 < baseCost →
      maxAffordable currency baseCost growth = maxAffordableSpec currency baseCost growth) ∧
      |totalCost 10 (11 / 10) 3 - 331 / 10| ≤ 1 / 1000000000 ∧
      maxAffordable (331 / 10) 10 (11 / 10) = 3 := by
  refine ⟨?_, ?_, ?_⟩
  · intro currency baseCost growth hc hb
    simp only [maxAffordable, maxAffordableSpec]
    rw [if_neg (not_le.mpr hc)]
    by_cases hg : growth = 1
    · rw [if_pos hg, if_pos hg]
    · rw [if_neg hg, if_neg hg]
      by_cases hr : currency * (growth - 1) / baseCost + 1 ≤ 1
      · rw [if_pos hr, if_pos hr]
      · rw [if_neg hr, if_neg hr]
        have h1 : (1 : ℚ) < currency * (growth - 1) / baseCost + 1 := lt_of_not_le hr
        have hgm : 0 < growth - 1 := by
          have hpos : 0 < currency * (growth - 1) / baseCost := by linarith
          have hmul : 0 < currency * (growth - 1) := by
            rcases div_pos_iff.mp hpos with ⟨ha, _⟩ | ⟨_, hbneg⟩
            · exact ha
            · exact absurd hb (not_lt.mpr (le_of_lt hbneg))
          rcases mul_pos_iff.mp hmul with ⟨_, h⟩ | ⟨h, _⟩
          · exact h
          · exact absurd hc (not_lt.mpr (le_of_lt h))
        have hg1 : (1 : ℝ) < ((growth : ℚ) : ℝ) := by
          have : (1 : ℚ) < growth := by linarith
          exact_mod_cast this
        have hr1 : (1 : ℝ) < ((currency * (growth - 1) / baseCost + 1 : ℚ) : ℝ) := by
          exact_mod_cast h1
        have hratio : 0 ≤ Real.log ((currency * (growth - 1) / baseCost + 1 : ℚ) : ℝ) /
            Real.log ((growth : ℚ) : ℝ) :=
          le_of_lt (div_pos (Real.log_pos hr1) (Real.log_pos hg1))
        exact max_eq_right (Int.floor_nonneg.mpr hratio)
  · rw [totalCost, if_neg (by norm_num), if_neg (by norm_num),
      show ((3 : ℤ)).toNat = 3 from rfl]
    norm_num
  · refine maxAffordable_eval (331 / 10) 10 (11 / 10) 3 (by norm_num) (by norm_num) ?_ ?_
      (by norm_num)
    · push_cast
      norm_num
    · push_cast
      norm_num

/-- Witness for C5's general clause at `currency = 50, baseCost = 10,
growth = 1`. -/
theorem C5_maxAffordable_witness :
    maxAffordable 50 10 1 = maxAffordableSpec 50 10 1 :=
  C5_maxAffordable.1 50 10 1 (by norm_num) (by norm_num)

/-- C4: for a fixed mode whose total cost exceeds the available currency,
`planPurchase` silently falls back to the max-affordable count and its cost
instead of failing; in particular `planPurchase("10", 25, 10, 1.1)` returns
exactly the count/cost pair of `maxAffordable(25, 10, 1.1)`. -/
theorem C4_fixed_fallback :
    (∀ (currency baseCost growth : ℚ) (m : BulkMode), m ≠ BulkMode.max →
      currency < totalCost baseCost growth (fixedCountOf m) →
      planPurchase m currency baseCost growth =
        (maxAffordable currency baseCost growth,
          totalCost baseCost growth (maxAffordable currency baseCost growth))) ∧
      planPurchase BulkMode.ten 25 10 (11 / 10) =
        (maxAffordable 25 10 (11 / 10),
          totalCost 10 (11 / 10) (maxAffordable 25 10 (11 / 10))) := by
  constructor
  · intro currency baseCost growth m hm hcost
    cases m with
    | max => exact absurd rfl hm
    | one =>
      simp only [planPurchase]
      rw [if_pos ⟨hm, hcost⟩]
    | ten =>
      simp only [planPurchase]
      rw [if_pos ⟨hm, hcost⟩]
    | hundred =>
      simp only [planPurchase]
      rw [if_pos ⟨hm, hcost⟩]
  · have hcost : (25 : ℚ) < totalCost 10 (11 / 10) (fixedCountOf BulkMode.ten) := by
      rw [fixedCountOf, totalCost, if_neg (by norm_num), if_neg (by norm_num),
        show ((10 : ℤ)).toNat = 10 from rfl]
      norm_num
    simp only [planPurchase]
    rw [if_pos ⟨by simp, hcost⟩]

/-- Witness for C4's general clause: mode "1" with currency 5 against base
cost 10 falls back to the max-affordable plan. -/
theorem C4_fixed_fallback_witness :
    planPurchase BulkMode.one 5 10 1 = (maxAffordable 5 10 1, totalCost 10 1 (maxAffordable 5 10 1)) :=
  C4_fixed_fallback.1 5 10 1 BulkMode.one (by simp) (by norm_num [totalCost, fixedCountOf])

/-- `l'` is `l` with exactly the row at `i` rewritten by `f`; every other row
(and the length) is untouched. -/
def updatesOnlyAt {α : Type} (l l' : List α) (i : ℕ) (f : α → α) : Prop :=
  l'.length = l.length ∧ (∀ j, j ≠ i → l'.get? j = l.get? j) ∧
    ∃ x, l.get? i = some x ∧ l'.get? i = some (f x)

/-- `l'` is `l` with exactly the rows at `i` and `k` rewritten (by `f` and `g`
respectively; when `i = k` the `f` rewrite wins, as in the source's
first-match conditional). -/
def updatesOnlyAt2 {α : Type} (l l' : List α) (i k : ℕ) (f g : α → α) : Prop :=
  l'.length = l.length ∧ (∀ j, j ≠ i → j ≠ k → l'.get? j = l.get? j) ∧
    (∃ x, l.get? i = some x ∧ l'.get? i = some (f x)) ∧
    (i ≠ k → ∃ y, l.get? k = some y ∧ l'.get? k = some (g y))

theorem updatesOnlyAt_idxMap {α : Type} (l : List α) (i : ℕ) (f : α → α) (x : α)
    (hget : l.get? i = some x) :
    updatesOnlyAt l (idxMap (fun j y => if j = i then f y else y) 0 l) i f := by
  refine ⟨idxMap_length _ 0 l, ?_, x, hget, ?_⟩
  · intro j hj
    rw [idxMap_get? _ l 0 j, Nat.zero_add]
    cases hgj : l.get? j with
    | none => rfl
    | some y => simp [if_neg hj]
  · rw [idxMap_get? _ l 0 i, Nat.zero_add, hget]
    simp

theorem updatesOnlyAt2_idxMap {α : Type} (l : List α) (i k : ℕ) (f g : α → α) (x y : α)
    (hgi : l.get? i = some x) (hgk : l.get? k = some y) :
    updatesOnlyAt2 l (idxMap (fun j z => if j = i then f z else if j = k then g z else z) 0 l)
      i k f g := by
  refine ⟨idxMap_length _ 0 l, ?_, ?_, ?_⟩
  · intro j hji hjk
    rw [idxMap_get? _ l 0 j, Nat.zero_add]
    cases hgj : l.get? j with
    | none => rfl
    | some z => simp [if_neg hji, if_neg hjk]
  · refine ⟨x, hgi, ?_⟩
    rw [idxMap_get? _ l 0 i, Nat.zero_add, hgi]
    simp
  · intro hik
    refine ⟨y, hgk, ?_⟩
    rw [idxMap_get? _ l 0 k, Nat.zero_add, hgk]
    simp [if_neg (Ne.symm hik)]

/-- The complete successful `grantResource` transition. -/
def FullGrant (s : GameState) (a : GrantResourceArgs) (out : GameState × List EngineEvent) : Prop :=
  0 < a.amount ∧
    ∃ i r, s.resources.findIdx? (fun x => x.id == a.resourceId) = some i ∧
      s.resources.get? i = some r ∧
      updatesOnlyAt s.resources out.1.resources i
        (fun x => { x with amount := r.amount + a.amount }) ∧
      out.1.generators = s.generators ∧ out.1.inventory = s.inventory ∧
      out.1.upgrades = s.upgrades ∧ out.1.tasks = s.tasks ∧
      out.2 = [EngineEvent.resourceDelta r.id a.amount]

/-- The complete successful `consumeResource` transition. -/
def FullConsume (s : GameState) (a : ConsumeResourceArgs)
    (out : GameState × List EngineEvent) : Prop :=
  0 < a.amount ∧
    ∃ i r, s.resources.findIdx? (fun x => x.id == a.resourceId) = some i ∧
      s.resources.get? i = some r ∧ a.amount ≤ r.amount ∧
      updatesOnlyAt s.resources out.1.resources i
        (fun x => { x with amount := r.amount - a.amount }) ∧
      out.1.generators = s.generators ∧ out.1.inventory = s.inventory ∧
      out.1.upgrades = s.upgrades ∧ out.1.tasks = s.tasks ∧
      out.2 = [EngineEvent.resourceDelta r.id (-a.amount)]

/-- The complete successful `applyUpgrade` transition. -/
def FullUpgrade (s : GameState) (a : ApplyUpgradeArgs)
    (out : GameState × List EngineEvent) : Prop :=
  ∃ i r, s.resources.findIdx? (fun x => x.id == a.costResourceId) = some i ∧
    s.resources.get? i = some r ∧ a.cost ≤ r.amount ∧
    updatesOnlyAt s.resources out.1.resources i
      (fun x => { x with amount := r.amount - a.cost }) ∧
    ((∃ j u, s.upgrades.findIdx? (fun x => x.id == a.upgradeId) = some j ∧
        s.upgrades.get? j = some u ∧
        updatesOnlyAt s.upgrades out.1.upgrades j (fun x => { x with level := x.level + 1 }) ∧
        out.2 = [EngineEvent.upgradeApplied a.upgradeId (u.level + 1) a.costResourceId a.cost,
          EngineEvent.resourceDelta a.costResourceId (-a.cost)]) ∨
      (s.upgrades.findIdx? (fun x => x.id == a.upgradeId) = none ∧
        out.1.upgrades = s.upgrades ++ [⟨a.upgradeId, 1⟩] ∧
        out.2 = [EngineEvent.upgradeApplied a.upgradeId 1 a.costResourceId a.cost,
          EngineEvent.resourceDelta a.costResourceId (-a.cost)])) ∧
    out.1.generators = s.generators ∧ out.1.inventory = s.inventory ∧ out.1.tasks = s.tasks

/-- The complete successful `buyGenerators` transition. -/
def FullBuy (s : GameState) (a : BuyGeneratorArgs) (reg : Registries)
    (out : GameState × List EngineEvent) : Prop :=
  ∃ d pr i r,
    reg.generators a.generatorId = some d ∧ d.pricing = some pr ∧
    s.resources.findIdx? (fun x => x.id == pr.costResourceId) = some i ∧
    s.resources.get? i = some r ∧
    (let plan := planPurchase a.mode r.amount pr.baseCost pr.growth
     0 < plan.1 ∧ 0 < plan.2 ∧
      updatesOnlyAt s.resources out.1.resources i
        (fun x => { x with amount := x.amount - plan.2 }) ∧
      ((∃ j gs, s.generators.findIdx? (fun x => x.id == a.generatorId) = some j ∧
          s.generators.get? j = some gs ∧
          updatesOnlyAt s.generators out.1.generators j
            (fun x => { x with owned := x.owned + plan.1 })) ∨
        (s.generators.findIdx? (fun x => x.id == a.generatorId) = none ∧
          out.1.generators = s.generators ++ [⟨a.generatorId, plan.1⟩])) ∧
      out.1.inventory = s.inventory ∧ out.1.upgrades = s.upgrades ∧ out.1.tasks = s.tasks ∧
      out.2 = [EngineEvent.generatorPurchase a.generatorId plan.1 pr.costResourceId plan.2,
        EngineEvent.resourceDelta pr.costResourceId (-plan.2)])

/-- The complete successful `sellResource` transition. -/
def FullSellRes (s : GameState) (a : SellResourceArgs)
    (out : GameState × List EngineEvent) : Prop :=
  ∃ fi ti rf rt,
    s.resources.findIdx? (fun x => x.id == a.fromResourceId) = some fi ∧
    s.resources.findIdx? (fun x => x.id == a.toResourceId) = some ti ∧
    s.resources.get? fi = some rf ∧ s.resources.get? ti = some rt ∧
    (let units := max 0 (min ((⌊rf.amount⌋ : ℚ)) (a.maxUnits.getD rf.amount))
     0 < units ∧ 0 < a.unitPrice ∧
      updatesOnlyAt2 s.resources out.1.resources fi ti
        (fun x => { x with amount := rf.amount - units })
        (fun x => { x with amount := rt.amount + units * a.unitPrice }) ∧
      out.1.generators = s.generators ∧ out.1.inventory = s.inventory ∧
      out.1.upgrades = s.upgrades ∧ out.1.tasks = s.tasks ∧
      out.2 = [EngineEvent.resourceDelta rf.id (-units),
        EngineEvent.resourceDelta rt.id (units * a.unitPrice)])

/-- The complete successful `sellItems` transition. -/
def FullSellItems (s : GameState) (a : SellItemsArgs)
    (out : GameState × List EngineEvent) : Prop :=
  ∃ ti rt,
    s.resources.findIdx? (fun x => x.id == a.toResourceId) = some ti ∧
    s.resources.get? ti = some rt ∧
    (let available := invCount s.inventory a.itemId
     let units := max 0 (min available (a.maxCount.getD available))
     0 < units ∧ 0 < a.unitPrice ∧
      updatesOnlyAt s.resources out.1.resources ti
        (fun x => { x with amount := rt.amount + (units : ℚ) * a.unitPrice }) ∧
      out.1.inventory = invConsume s.inventory a.itemId units ∧
      out.1.generators = s.generators ∧ out.1.upgrades = s.upgrades ∧ out.1.tasks = s.tasks ∧
      out.2 = [EngineEvent.inventoryConsumed a.itemId units,
        EngineEvent.resourceDelta rt.id ((units : ℚ) * a.unitPrice)])

theorem totalCost_zero_count (b g : ℚ) : totalCost b g 0 = 0 := by
  rw [totalCost, if_pos le_rfl]

theorem maxAffordable_50_100 (g : ℚ) (hg : 1 ≤ g) : maxAffordable 50 100 g = 0 := by
  by_cases h1 : g = 1
  · subst h1
    norm_num [maxAffordable]
  · have hg1 : 1 < g := lt_of_le_of_ne hg (Ne.symm h1)
    have h := maxAffordable_eval 50 100 g 0 (by norm_num) hg1 ?_ ?_ ?_
    · simpa using h
    · rw [pow_zero]
      have : (1 : ℚ) ≤ 50 * (g - 1) / 100 + 1 := by linarith
      exact_mod_cast this
    · rw [pow_one]
      have : 50 * (g - 1) / 100 + 1 < g := by linarith
      exact_mod_cast this
    · intro hle
      linarith

theorem totalCost_ge_base (b g : ℚ) (k : ℤ) (hb : 0 ≤ b) (hg : 1 ≤ g) (hk : 1 ≤ k) :
    b ≤ totalCost b g k := by
  rw [totalCost, if_neg (not_le.mpr (by omega))]
  by_cases h1 : g = 1
  · rw [if_pos h1]
    have hk1 : (1 : ℚ) ≤ (k : ℚ) := by exact_mod_cast hk
    nlinarith
  · rw [if_neg h1]
    have hgeom : (g ^ k.toNat - 1) / (g - 1) = ∑ i ∈ Finset.range k.toNat, g ^ i :=
      (geom_sum_eq h1 k.toNat).symm
    rw [hgeom]
    have h0 : (0 : ℕ) ∈ Finset.range k.toNat := Finset.mem_range.mpr (by omega)
    have hsum := Finset.single_le_sum
      (f := fun i => g ^ i) (fun i _ => pow_nonneg (by linarith) i) h0
    simp only [pow_zero] at hsum
    nlinarith

theorem plan_insufficient (g : ℚ) (hg : 1 ≤ g) (m : BulkMode) :
    planPurchase m 50 100 g = (0, 0) := by
  have hmax := maxAffordable_50_100 g hg
  have hfixed : ∀ k : ℤ, 1 ≤ k → (50 : ℚ) < totalCost 100 g k := fun k hk =>
    lt_of_lt_of_le (by norm_num) (totalCost_ge_base 100 g k (by norm_num) hg hk)
  cases m with
  | max =>
    simp only [planPurchase]
    rw [hmax, if_neg (by simp), totalCost_zero_count]
  | one =>
    simp only [planPurchase]
    rw [if_pos ⟨by simp, hfixed 1 le_rfl⟩, hmax, totalCost_zero_count]
  | ten =>
    simp only [planPurchase]
    rw [if_pos ⟨by simp, hfixed 10 (by omega)⟩, hmax, totalCost_zero_count]
  | hundred =>
    simp only [planPurchase]
    rw [if_pos ⟨by simp, hfixed 100 (by omega)⟩, hmax, totalCost_zero_count]

/-- C6: on any state whose cost resource holds amount 50 against a generator
priced at base cost 100 (growth ≥ 1, any bulk mode),
`EconomyService.buyGeneratorsOrThrow` throws
`InsufficientResourceError{required: 100, available: 50}` while the silent
`EconomyService.buyGenerators` returns the unchanged state and no events. -/
theorem C6_insufficient : ∀ (s : GameState) (reg : Registries) (a : BuyGeneratorArgs)
    (d : GeneratorDefinition) (cid : String) (g : ℚ) (i : ℕ) (r : ResourceState),
    reg.generators a.generatorId = some d → d.pricing = some ⟨cid, 100, g⟩ → 1 ≤ g →
    s.resources.findIdx? (fun x => x.id == cid) = some i →
    s.resources.get? i = some r → r.amount = 50 →
    buyGeneratorsOrThrow s a reg = .error (.insufficientResource cid 100 50) ∧
      buyGenerators s a reg = (s, []) := by
  intro s reg a d cid g i r hd hpr hg hfi hget hamt
  have hplan := plan_insufficient g hg a.mode
  constructor
  · simp only [buyGeneratorsOrThrow, hd, hpr, hfi, getD_of_get? hget, hamt, hplan]
    norm_num
  · simp only [buyGenerators, hd, hpr, hfi, getD_of_get? hget, hamt, hplan]
    norm_num

/-- Witness for C6: concrete state with 50 gold, a generator priced at
100 gold with growth 1, bulk mode "1". -/
theorem C6_insufficient_witness :
    buyGeneratorsOrThrow ⟨[⟨"gold", 50, none⟩], [], [], [], none⟩ ⟨"gen", BulkMode.one⟩
        ⟨fun id => if id = "gen" then some ⟨"gen", [], some ⟨"gold", 100, 1⟩⟩ else none,
         fun _ => none, none⟩ =
      .error (.insufficientResource "gold" 100 50) ∧
      buyGenerators ⟨[⟨"gold", 50, none⟩], [], [], [], none⟩ ⟨"gen", BulkMode.one⟩
        ⟨fun id => if id = "gen" then some ⟨"gen", [], some ⟨"gold", 100, 1⟩⟩ else none,
         fun _ => none, none⟩ =
      (⟨[⟨"gold", 50, none⟩], [], [], [], none⟩, []) :=
  C6_insufficient ⟨[⟨"gold", 50, none⟩], [], [], [], none⟩
    ⟨fun id => if id = "gen" then some ⟨"gen", [], some ⟨"gold", 100, 1⟩⟩ else none,
     fun _ => none, none⟩
    ⟨"gen", BulkMode.one⟩ ⟨"gen", [], some ⟨"gold", 100, 1⟩⟩ "gold" 1 0 ⟨"gold", 50, none⟩
    (by simp) rfl le_rfl (by simp [List.findIdx?]) rfl rfl


/-- Proof-side abbreviation for `{ s with resources := rs }`. -/
def withRes (s : GameState) (rs : List ResourceState) : GameState :=
  { s with resources := rs }

/-- Proof-side abbreviation for `{ s with resources := rs, upgrades := us }`. -/
def withResUps (s : GameState) (rs : List ResourceState) (us : List UpgradeState) : GameState :=
  { s with resources := rs, upgrades := us }

/-- Proof-side abbreviation for `{ s with resources := rs, generators := gs }`. -/
def withResGens (s : GameState) (rs : List ResourceState) (gs : List GeneratorState) : GameState :=
  { s with resources := rs, generators := gs }

/-- Proof-side abbreviation for `{ s with inventory := inv, resources := rs }`. -/
def withResInv (s : GameState) (rs : List ResourceState) (inv : List InventoryEntry) : GameState :=
  { s with resources := rs, inventory := inv }

theorem grantResource_cases (s : GameState) (a : GrantResourceArgs) :
    grantResource s a = (s, []) ∨ FullGrant s a (grantResource s a) := by
  cases hfi : s.resources.findIdx? (fun x => x.id == a.resourceId) with
  | none => left; simp [grantResource, hfi]
  | some i =>
    by_cases hamt : a.amount ≤ 0
    · left; simp [grantResource, hfi, hamt]
    · right
      obtain ⟨r, hget, _⟩ := findIdxQ_some _ hfi
      have hgd := getD_of_get? hget
      have hout : grantResource s a =
          (withRes s (idxMap
              (fun j x => if j = i then { x with amount := r.amount + a.amount } else x)
              0 s.resources),
            [EngineEvent.resourceDelta r.id a.amount]) := by
        simp only [grantResource, withRes, hfi, if_neg hamt, hgd]
      rw [hout]
      exact ⟨lt_of_not_le hamt, i, r, hfi, hget,
        updatesOnlyAt_idxMap s.resources i _ r hget, rfl, rfl, rfl, rfl, rfl⟩

theorem consumeResource_cases (s : GameState) (a : ConsumeResourceArgs) :
    consumeResource s a = (s, []) ∨ FullConsume s a (consumeResource s a) := by
  cases hfi : s.resources.findIdx? (fun x => x.id == a.resourceId) with
  | none => left; simp [consumeResource, hfi]
  | some i =>
    by_cases hamt : a.amount ≤ 0
    · left; simp [consumeResource, hfi, hamt]
    · obtain ⟨r, hget, _⟩ := findIdxQ_some _ hfi
      have hgd := getD_of_get? hget
      by_cases hcur : r.amount < a.amount
      · left; simp only [consumeResource, hfi, hgd, if_neg hamt, if_pos hcur]
      · right
        have hout : consumeResource s a =
            (withRes s (idxMap
                (fun j x => if j = i then { x with amount := r.amount - a.amount } else x)
                0 s.resources),
              [EngineEvent.resourceDelta r.id (-a.amount)]) := by
          simp only [consumeResource, withRes, hfi, hgd, if_neg hamt, if_neg hcur]
        rw [hout]
        exact ⟨lt_of_not_le hamt, i, r, hfi, hget, not_lt.mp hcur,
          updatesOnlyAt_idxMap s.resources i _ r hget, rfl, rfl, rfl, rfl, rfl⟩

theorem grantResourceOrThrow_cases (s : GameState) (a : GrantResourceArgs) :
    (∃ e, grantResourceOrThrow s a = .error e) ∨
      (∃ out, grantResourceOrThrow s a = .ok out ∧ grantResource s a = out ∧
        FullGrant s a out) := by
  by_cases hamt : a.amount ≤ 0
  · left
    exact ⟨EconomyError.invalidQuantity a.amount "Amount must be positive",
      by simp [grantResourceOrThrow, hamt]⟩
  · cases hfi : s.resources.findIdx? (fun x => x.id == a.resourceId) with
    | none =>
      left
      exact ⟨EconomyError.resourceNotFound a.resourceId,
        by simp [grantResourceOrThrow, hamt, hfi]⟩
    | some i =>
      right
      obtain ⟨r, hget, _⟩ := findIdxQ_some _ hfi
      have hgd := getD_of_get? hget
      refine ⟨(withRes s (idxMap
          (fun j x => if j = i then { x with amount := r.amount + a.amount } else x)
          0 s.resources),
        [EngineEvent.resourceDelta r.id a.amount]), ?_, ?_, ?_⟩
      · simp only [grantResourceOrThrow, withRes, hfi, if_neg hamt, hgd]
      · simp only [grantResource, withRes, hfi, if_neg hamt, hgd]
      · exact ⟨lt_of_not_le hamt, i, r, hfi, hget,
          updatesOnlyAt_idxMap s.resources i _ r hget, rfl, rfl, rfl, rfl, rfl⟩

theorem consumeResourceOrThrow_cases (s : GameState) (a : ConsumeResourceArgs) :
    (∃ e, consumeResourceOrThrow s a = .error e) ∨
      (∃ out, consumeResourceOrThrow s a = .ok out ∧ consumeResource s a = out ∧
        FullConsume s a out) := by
  by_cases hamt : a.amount ≤ 0
  · left
    exact ⟨EconomyError.invalidQuantity a.amount "Amount must be positive",
      by simp [consumeResourceOrThrow, hamt]⟩
  · cases hfi : s.resources.findIdx? (fun x => x.id == a.resourceId) with
    | none =>
      left
      exact ⟨EconomyError.resourceNotFound a.resourceId,
        by simp [consumeResourceOrThrow, hamt, hfi]⟩
    | some i =>
      obtain ⟨r, hget, _⟩ := findIdxQ_some _ hfi
      have hgd := getD_of_get? hget
      by_cases hcur : r.amount < a.amount
      · left
        exact ⟨EconomyError.insufficientResource a.resourceId a.amount r.amount,
          by simp only [consumeResourceOrThrow, hfi, hgd, if_neg hamt, if_pos hcur]⟩
      · right
        refine ⟨(withRes s (idxMap
            (fun j x => if j = i then { x with amount := r.amount - a.amount } else x)
            0 s.resources),
          [EngineEvent.resourceDelta r.id (-a.amount)]), ?_, ?_, ?_⟩
        · simp only [consumeResourceOrThrow, withRes, hfi, hgd, if_neg hamt, if_neg hcur]
        · simp only [consumeResource, withRes, hfi, hgd, if_neg hamt, if_neg hcur]
        · exact ⟨lt_of_not_le hamt, i, r, hfi, hget, not_lt.mp hcur,
            updatesOnlyAt_idxMap s.resources i _ r hget, rfl, rfl, rfl, rfl, rfl⟩

theorem applyUpgrade_cases (s : GameState) (a : ApplyUpgradeArgs) :
    applyUpgrade s a = (s, []) ∨ FullUpgrade s a (applyUpgrade s a) := by
  cases hfi : s.resources.findIdx? (fun x => x.id == a.costResourceId) with
  | none => left; simp [applyUpgrade, hfi]
  | some i =>
    obtain ⟨r, hget, _⟩ := findIdxQ_some _ hfi
    have hgd := getD_of_get? hget
    by_cases hcur : r.amount < a.cost
    · left; simp only [applyUpgrade, hfi, hgd, if_pos hcur]
    · right
      cases hui : s.upgrades.findIdx? (fun x => x.id == a.upgradeId) with
      | some j =>
        obtain ⟨u, hgetu, _⟩ := findIdxQ_some _ hui
        have hgdu := getD_of_get? hgetu
        have hout : applyUpgrade s a =
            (withResUps s
              (idxMap (fun k x => if k = i then { x with amount := r.amount - a.cost } else x)
                0 s.resources)
              (idxMap (fun k x => if k = j then { x with level := x.level + 1 } else x)
                0 s.upgrades),
              [EngineEvent.upgradeApplied a.upgradeId (u.level + 1) a.costResourceId a.cost,
                EngineEvent.resourceDelta a.costResourceId (-a.cost)]) := by
          simp only [applyUpgrade, withResUps, hfi, hgd, if_neg hcur, hui, hgdu]
        rw [hout]
        exact ⟨i, r, hfi, hget, not_lt.mp hcur,
          updatesOnlyAt_idxMap s.resources i _ r hget,
          Or.inl ⟨j, u, hui, hgetu, updatesOnlyAt_idxMap s.upgrades j _ u hgetu, rfl⟩,
          rfl, rfl, rfl⟩
      | none =>
        have hout : applyUpgrade s a =
            (withResUps s
              (idxMap (fun k x => if k = i then { x with amount := r.amount - a.cost } else x)
                0 s.resources)
              (s.upgrades ++ [⟨a.upgradeId, 1⟩]),
              [EngineEvent.upgradeApplied a.upgradeId 1 a.costResourceId a.cost,
                EngineEvent.resourceDelta a.costResourceId (-a.cost)]) := by
          simp only [applyUpgrade, withResUps, hfi, hgd, if_neg hcur, hui]
        rw [hout]
        exact ⟨i, r, hfi, hget, not_lt.mp hcur,
          updatesOnlyAt_idxMap s.resources i _ r hget,
          Or.inr ⟨hui, rfl, rfl⟩, rfl, rfl, rfl⟩

theorem applyUpgradeOrThrow_cases (s : GameState) (a : ApplyUpgradeArgs) :
    (∃ e, applyUpgradeOrThrow s a = .error e) ∨
      (∃ out, applyUpgradeOrThrow s a = .ok out ∧ applyUpgrade s a = out ∧
        FullUpgrade s a out) := by
  cases hfi : s.resources.findIdx? (fun x => x.id == a.costResourceId) with
  | none =>
    left
    exact ⟨EconomyError.resourceNotFound a.costResourceId, by simp [applyUpgradeOrThrow, hfi]⟩
  | some i =>
    obtain ⟨r, hget, _⟩ := findIdxQ_some _ hfi
    have hgd := getD_of_get? hget
    by_cases hcur : r.amount < a.cost
    · left
      exact ⟨EconomyError.insufficientResource a.costResourceId a.cost r.amount,
        by simp only [applyUpgradeOrThrow, hfi, hgd, if_pos hcur]⟩
    · right
      cases hui : s.upgrades.findIdx? (fun x => x.id == a.upgradeId) with
      | some j =>
        obtain ⟨u, hgetu, _⟩ := findIdxQ_some _ hui
        have hgdu := getD_of_get? hgetu
        refine ⟨(withResUps s
            (idxMap (fun k x => if k = i then { x with amount := r.amount - a.cost } else x)
              0 s.resources)
            (idxMap (fun k x => if k = j then { x with level := x.level + 1 } else x)
              0 s.upgrades),
            [EngineEvent.upgradeApplied a.upgradeId (u.level + 1) a.costResourceId a.cost,
              EngineEvent.resourceDelta a.costResourceId (-a.cost)]), ?_, ?_, ?_⟩
        · simp only [applyUpgradeOrThrow, withResUps, hfi, hgd, if_neg hcur, hui, hgdu]
        · simp only [applyUpgrade, withResUps, hfi, hgd, if_neg hcur, hui, hgdu]
        · exact ⟨i, r, hfi, hget, not_lt.mp hcur,
            updatesOnlyAt_idxMap s.resources i _ r hget,
            Or.inl ⟨j, u, hui, hgetu, updatesOnlyAt_idxMap s.upgrades j _ u hgetu, rfl⟩,
            rfl, rfl, rfl⟩
      | none =>
        refine ⟨(withResUps s
            (idxMap (fun k x => if k = i then { x with amount := r.amount - a.cost } else x)
              0 s.resources)
            (s.upgrades ++ [⟨a.upgradeId, 1⟩]),
            [EngineEvent.upgradeApplied a.upgradeId 1 a.costResourceId a.cost,
              EngineEvent.resourceDelta a.costResourceId (-a.cost)]), ?_, ?_, ?_⟩
        · simp only [applyUpgradeOrThrow, withResUps, hfi, hgd, if_neg hcur, hui]
        · simp only [applyUpgrade, withResUps, hfi, hgd, if_neg hcur, hui]
        · exact ⟨i, r, hfi, hget, not_lt.mp hcur,
            updatesOnlyAt_idxMap s.resources i _ r hget,
            Or.inr ⟨hui, rfl, rfl⟩, rfl, rfl, rfl⟩

theorem buyGenerators_cases (s : GameState) (a : BuyGeneratorArgs) (reg : Registries) :
    buyGenerators s a reg = (s, []) ∨ FullBuy s a reg (buyGenerators s a reg) := by
  cases hd : reg.generators a.generatorId with
  | none => left; simp [buyGenerators, hd]
  | some d =>
    cases hpr : d.pricing with
    | none => left; simp [buyGenerators, hd, hpr]
    | some pr =>
      cases hfi : s.resources.findIdx? (fun x => x.id == pr.costResourceId) with
      | none => left; simp [buyGenerators, hd, hpr, hfi]
      | some i =>
        obtain ⟨r, hget, _⟩ := findIdxQ_some _ hfi
        have hgd := getD_of_get? hget
        by_cases hplan : (planPurchase a.mode r.amount pr.baseCost pr.growth).1 ≤ 0 ∨
            (planPurchase a.mode r.amount pr.baseCost pr.growth).2 ≤ 0
        · left; simp only [buyGenerators, hd, hpr, hfi, hgd, if_pos hplan]
        · right
          push_neg at hplan
          cases hgi : s.generators.findIdx? (fun x => x.id == a.generatorId) with
          | some j =>
            obtain ⟨g, hgetg, _⟩ := findIdxQ_some _ hgi
            have hout : buyGenerators s a reg =
                (withResGens s
                  (idxMap (fun k x =>
                      if k = i then
                        { x with amount :=
                            x.amount - (planPurchase a.mode r.amount pr.baseCost pr.growth).2 }
                      else x)
                    0 s.resources)
                  (idxMap (fun k x =>
                      if k = j then
                        { x with owned :=
                            x.owned + (planPurchase a.mode r.amount pr.baseCost pr.growth).1 }
                      else x)
                    0 s.generators),
                  [EngineEvent.generatorPurchase a.generatorId
                      (planPurchase a.mode r.amount pr.baseCost pr.growth).1 pr.costResourceId
                      (planPurchase a.mode r.amount pr.baseCost pr.growth).2,
                    EngineEvent.resourceDelta pr.costResourceId
                      (-(planPurchase a.mode r.amount pr.baseCost pr.growth).2)]) := by
              simp only [buyGenerators, withResGens, hd, hpr, hfi, hgd, hgi,
                if_neg (not_or.mpr ⟨not_le.mpr hplan.1, not_le.mpr hplan.2⟩)]
            rw [hout]
            exact ⟨d, pr, i, r, hd, hpr, hfi, hget, hplan.1, hplan.2,
              updatesOnlyAt_idxMap s.resources i _ r hget,
              Or.inl ⟨j, g, hgi, hgetg, updatesOnlyAt_idxMap s.generators j _ g hgetg⟩,
              rfl, rfl, rfl, rfl⟩
          | none =>
            have hout : buyGenerators s a reg =
                (withResGens s
                  (idxMap (fun k x =>
                      if k = i then
                        { x with amount :=
                            x.amount - (planPurchase a.mode r.amount pr.baseCost pr.growth).2 }
                      else x)
                    0 s.resources)
                  (s.generators ++
                    [⟨a.generatorId, (planPurchase a.mode r.amount pr.baseCost pr.growth).1⟩]),
                  [EngineEvent.generatorPurchase a.generatorId
                      (planPurchase a.mode r.amount pr.baseCost pr.growth).1 pr.costResourceId
                      (planPurchase a.mode r.amount pr.baseCost pr.growth).2,
                    EngineEvent.resourceDelta pr.costResourceId
                      (-(planPurchase a.mode r.amount pr.baseCost pr.growth).2)]) := by
              simp only [buyGenerators, withResGens, hd, hpr, hfi, hgd, hgi,
                if_neg (not_or.mpr ⟨not_le.mpr hplan.1, not_le.mpr hplan.2⟩)]
            rw [hout]
            exact ⟨d, pr, i, r, hd, hpr, hfi, hget, hplan.1, hplan.2,
              updatesOnlyAt_idxMap s.resources i _ r hget,
              Or.inr ⟨hgi, rfl⟩, rfl, rfl, rfl, rfl⟩

theorem buyGeneratorsOrThrow_cases (s : GameState) (a : BuyGeneratorArgs) (reg : Registries) :
    (∃ e, buyGeneratorsOrThrow s a reg = .error e) ∨
      (∃ out, buyGeneratorsOrThrow s a reg = .ok out ∧ buyGenerators s a reg = out ∧
        FullBuy s a reg out) := by
  cases hd : reg.generators a.generatorId with
  | none =>
    left
    exact ⟨EconomyError.generatorNotFound a.generatorId, by simp [buyGeneratorsOrThrow, hd]⟩
  | some d =>
    cases hpr : d.pricing with
    | none =>
      left
      exact ⟨EconomyError.generatorNotFound a.generatorId,
        by simp [buyGeneratorsOrThrow, hd, hpr]⟩
    | some pr =>
      cases hfi : s.resources.findIdx? (fun x => x.id == pr.costResourceId) with
      | none =>
        left
        exact ⟨EconomyError.resourceNotFound pr.costResourceId,
          by simp [buyGeneratorsOrThrow, hd, hpr, hfi]⟩
      | some i =>
        obtain ⟨r, hget, _⟩ := findIdxQ_some _ hfi
        have hgd := getD_of_get? hget
        by_cases hplan : (planPurchase a.mode r.amount pr.baseCost pr.growth).1 ≤ 0 ∨
            (planPurchase a.mode r.amount pr.baseCost pr.growth).2 ≤ 0
        · left
          exact ⟨EconomyError.insufficientResource pr.costResourceId pr.baseCost r.amount,
            by simp only [buyGeneratorsOrThrow, hd, hpr, hfi, hgd, if_pos hplan]⟩
        · right
          push_neg at hplan
          cases hgi : s.generators.findIdx? (fun x => x.id == a.generatorId) with
          | some j =>
            obtain ⟨g, hgetg, _⟩ := findIdxQ_some _ hgi
            refine ⟨(withResGens s
                (idxMap (fun k x =>
                    if k = i then
                      { x with amount :=
                          x.amount - (planPurchase a.mode r.amount pr.baseCost pr.growth).2 }
                    else x)
                  0 s.resources)
                (idxMap (fun k x =>
                    if k = j then
                      { x with owned :=
                          x.owned + (planPurchase a.mode r.amount pr.baseCost pr.growth).1 }
                    else x)
                  0 s.generators),
                [EngineEvent.generatorPurchase a.generatorId
                    (planPurchase a.mode r.amount pr.baseCost pr.growth).1 pr.costResourceId
                    (planPurchase a.mode r.amount pr.baseCost pr.growth).2,
                  EngineEvent.resourceDelta pr.costResourceId
                    (-(planPurchase a.mode r.amount pr.baseCost pr.growth).2)]), ?_, ?_, ?_⟩
            · simp only [buyGeneratorsOrThrow, withResGens, hd, hpr, hfi, hgd, hgi,
                if_neg (not_or.mpr ⟨not_le.mpr hplan.1, not_le.mpr hplan.2⟩)]
            · simp only [buyGenerators, withResGens, hd, hpr, hfi, hgd, hgi,
                if_neg (not_or.mpr ⟨not_le.mpr hplan.1, not_le.mpr hplan.2⟩)]
            · exact ⟨d, pr, i, r, hd, hpr, hfi, hget, hplan.1, hplan.2,
                updatesOnlyAt_idxMap s.resources i _ r hget,
                Or.inl ⟨j, g, hgi, hgetg, updatesOnlyAt_idxMap s.generators j _ g hgetg⟩,
                rfl, rfl, rfl, rfl⟩
          | none =>
            refine ⟨(withResGens s
                (idxMap (fun k x =>
                    if k = i then
                      { x with amount :=
                          x.amount - (planPurchase a.mode r.amount pr.baseCost pr.growth).2 }
                    else x)
                  0 s.resources)
                (s.generators ++
                  [⟨a.generatorId, (planPurchase a.mode r.amount pr.baseCost pr.growth).1⟩]),
                [EngineEvent.generatorPurchase a.generatorId
                    (planPurchase a.mode r.amount pr.baseCost pr.growth).1 pr.costResourceId
                    (planPurchase a.mode r.amount pr.baseCost pr.growth).2,
                  EngineEvent.resourceDelta pr.costResourceId
                    (-(planPurchase a.mode r.amount pr.baseCost pr.growth).2)]), ?_, ?_, ?_⟩
            · simp only [buyGeneratorsOrThrow, withResGens, hd, hpr, hfi, hgd, hgi,
                if_neg (not_or.mpr ⟨not_le.mpr hplan.1, not_le.mpr hplan.2⟩)]
            · simp only [buyGenerators, withResGens, hd, hpr, hfi, hgd, hgi,
                if_neg (not_or.mpr ⟨not_le.mpr hplan.1, not_le.mpr hplan.2⟩)]
            · exact ⟨d, pr, i, r, hd, hpr, hfi, hget, hplan.1, hplan.2,
                updatesOnlyAt_idxMap s.resources i _ r hget,
                Or.inr ⟨hgi, rfl⟩, rfl, rfl, rfl, rfl⟩


theorem sellResource_cases (s : GameState) (a : SellResourceArgs) :
    sellResource s a = (s, []) ∨ FullSellRes s a (sellResource s a) := by
  cases hff : s.resources.findIdx? (fun x => x.id == a.fromResourceId) with
  | none => left; simp [sellResource, hff]
  | some fi =>
    cases hft : s.resources.findIdx? (fun x => x.id == a.toResourceId) with
    | none => left; simp [sellResource, hff, hft]
    | some ti =>
      obtain ⟨rf, hgetf, _⟩ := findIdxQ_some _ hff
      obtain ⟨rt, hgett, _⟩ := findIdxQ_some _ hft
      have hgdf := getD_of_get? hgetf
      have hgdt := getD_of_get? hgett
      by_cases hu : max 0 (min ((⌊rf.amount⌋ : ℚ)) (a.maxUnits.getD rf.amount)) ≤ 0 ∨
          a.unitPrice ≤ 0
      · left; simp only [sellResource, hff, hft, hgdf, if_pos hu]
      · right
        push_neg at hu
        have hout : sellResource s a =
            (withRes s
              (idxMap (fun k x =>
                  if k = fi then { x with amount := rf.amount - max 0 (min ((⌊rf.amount⌋ : ℚ)) (a.maxUnits.getD rf.amount)) }
                  else if k = ti then { x with amount := rt.amount + max 0 (min ((⌊rf.amount⌋ : ℚ)) (a.maxUnits.getD rf.amount)) * a.unitPrice }
                  else x)
                0 s.resources),
              [EngineEvent.resourceDelta rf.id (-(max 0 (min ((⌊rf.amount⌋ : ℚ)) (a.maxUnits.getD rf.amount)))),
                EngineEvent.resourceDelta rt.id (max 0 (min ((⌊rf.amount⌋ : ℚ)) (a.maxUnits.getD rf.amount)) * a.unitPrice)]) := by
          simp only [sellResource, withRes, hff, hft, hgdf, hgdt,
            if_neg (not_or.mpr ⟨not_le.mpr hu.1, not_le.mpr hu.2⟩)]
        rw [hout]
        exact ⟨fi, ti, rf, rt, hff, hft, hgetf, hgett, hu.1, hu.2,
          updatesOnlyAt2_idxMap s.resources fi ti _ _ rf rt hgetf hgett, rfl, rfl, rfl, rfl, rfl⟩

theorem sellItems_cases (s : GameState) (a : SellItemsArgs) :
    sellItems s a = (s, []) ∨ FullSellItems s a (sellItems s a) := by
  cases hft : s.resources.findIdx? (fun x => x.id == a.toResourceId) with
  | none => left; simp [sellItems, hft]
  | some ti =>
    obtain ⟨rt, hgett, _⟩ := findIdxQ_some _ hft
    have hgdt := getD_of_get? hgett
    by_cases hu : max 0 (min (invCount s.inventory a.itemId)
        (a.maxCount.getD (invCount s.inventory a.itemId))) ≤ 0 ∨ a.unitPrice ≤ 0
    · left; simp only [sellItems, hft, if_pos hu]
    · right
      push_neg at hu
      have hout : sellItems s a =
          (withResInv s
            (idxMap (fun k x =>
                if k = ti then { x with amount := rt.amount + ((max 0 (min (invCount s.inventory a.itemId) (a.maxCount.getD (invCount s.inventory a.itemId))) : ℤ) : ℚ) * a.unitPrice }
                else x)
              0 s.resources)
            (invConsume s.inventory a.itemId (max 0 (min (invCount s.inventory a.itemId) (a.maxCount.getD (invCount s.inventory a.itemId))))),
            [EngineEvent.inventoryConsumed a.itemId (max 0 (min (invCount s.inventory a.itemId) (a.maxCount.getD (invCount s.inventory a.itemId)))),
              EngineEvent.resourceDelta rt.id (((max 0 (min (invCount s.inventory a.itemId) (a.maxCount.getD (invCount s.inventory a.itemId))) : ℤ) : ℚ) * a.unitPrice)]) := by
        simp only [sellItems, withResInv, hft, hgdt,
          if_neg (not_or.mpr ⟨not_le.mpr hu.1, not_le.mpr hu.2⟩)]
      rw [hout]
      exact ⟨ti, rt, hft, hgett, hu.1, hu.2,
        updatesOnlyAt_idxMap s.resources ti _ rt hgett, rfl, rfl, rfl, rfl, rfl⟩

/-- C7: every `EconomyService` operation is all-or-nothing.  Each silent
operation either returns the exact input state with an empty event list (any
validation failure) or performs its complete transition — the coupled
resource/generator/upgrade/inventory updates together with their events, with
every untouched row and every other state field preserved.  Each throwing
variant either raises a typed error (leaving no state to observe) or returns
exactly the same complete transition as its silent twin. -/
theorem C7_all_or_nothing :
    (∀ (s : GameState) (a : BuyGeneratorArgs) (reg : Registries),
      buyGenerators s a reg = (s, []) ∨ FullBuy s a reg (buyGenerators s a reg)) ∧
    (∀ (s : GameState) (a : ApplyUpgradeArgs),
      applyUpgrade s a = (s, []) ∨ FullUpgrade s a (applyUpgrade s a)) ∧
    (∀ (s : GameState) (a : SellResourceArgs),
      sellResource s a = (s, []) ∨ FullSellRes s a (sellResource s a)) ∧
    (∀ (s : GameState) (a : SellItemsArgs),
      sellItems s a = (s, []) ∨ FullSellItems s a (sellItems s a)) ∧
    (∀ (s : GameState) (a : GrantResourceArgs),
      grantResource s a = (s, []) ∨ FullGrant s a (grantResource s a)) ∧
    (∀ (s : GameState) (a : ConsumeResourceArgs),
      consumeResource s a = (s, []) ∨ FullConsume s a (consumeResource s a)) ∧
    (∀ (s : GameState) (a : BuyGeneratorArgs) (reg : Registries),
      (∃ e, buyGeneratorsOrThrow s a reg = .error e) ∨
        (∃ out, buyGeneratorsOrThrow s a reg = .ok out ∧ buyGenerators s a reg = out ∧
          FullBuy s a reg out)) ∧
    (∀ (s : GameState) (a : ApplyUpgradeArgs),
      (∃ e, applyUpgradeOrThrow s a = .error e) ∨
        (∃ out, applyUpgradeOrThrow s a = .ok out ∧ applyUpgrade s a = out ∧
          FullUpgrade s a out)) ∧
    (∀ (s : GameState) (a : GrantResourceArgs),
      (∃ e, grantResourceOrThrow s a = .error e) ∨
        (∃ out, grantResourceOrThrow s a = .ok out ∧ grantResource s a = out ∧
          FullGrant s a out)) ∧
    (∀ (s : GameState) (a : ConsumeResourceArgs),
      (∃ e, consumeResourceOrThrow s a = .error e) ∨
        (∃ out, consumeResourceOrThrow s a = .ok out ∧ consumeResource s a = out ∧
          FullConsume s a out)) :=
  ⟨buyGenerators_cases, applyUpgrade_cases, sellResource_cases, sellItems_cases,
    grantResource_cases, consumeResource_cases, buyGeneratorsOrThrow_cases,
    applyUpgradeOrThrow_cases, grantResourceOrThrow_cases, consumeResourceOrThrow_cases⟩

/-- Witness for C7 at a concrete input: consuming 2 gold out of 5. -/
theorem C7_all_or_nothing_witness :
    consumeResource ⟨[⟨"gold", 5, none⟩], [], [], [], none⟩ ⟨"gold", 2⟩ =
        (⟨[⟨"gold", 5, none⟩], [], [], [], none⟩, []) ∨
      FullConsume ⟨[⟨"gold", 5, none⟩], [], [], [], none⟩ ⟨"gold", 2⟩
        (consumeResource ⟨[⟨"gold", 5, none⟩], [], [], [], none⟩ ⟨"gold", 2⟩) :=
  C7_all_or_nothing.2.2.2.2.2.1 ⟨[⟨"gold", 5, none⟩], [], [], [], none⟩ ⟨"gold", 2⟩
